import Mathlib

/-!
# ChipAteEmu: the CHIP-8 interpreter core of `src/chip8.cpp`

A shallow embedding of the class `Chip8` (`src/chip8.h`, `src/chip8.cpp`).

* The fixed-size arrays (`memory`, `video`, `registers`, `stack`, `keypad`) are total maps
  `Nat → Nat`; only the indices below the array size are cells of the array.
* Machine integers are `Nat` with an explicit reduction at every assignment: `% 256` for
  `uint8_t`, `% 65536` for `uint16_t`.  Arithmetic inside an expression is done in `int`
  (integer promotion), so it is exact until the assignment.
* An access outside an array is undefined behaviour in C++.  The functions of the embedding
  return `Option Chip8`, and `none` stands for "the code indexes outside an array".
* `std::cout` and `std::cerr` are output logs carried in the state (newest entry first).
* The SDL window and renderer carry no interpreter state and are left out.
-/

namespace Chip8Emu

/-- Static constant `SCREEN_WIDTH` of `chip8.h`. -/
abbrev SCREEN_WIDTH : Nat := 64

/-- Static constant `SCREEN_HEIGHT` of `chip8.h`. -/
abbrev SCREEN_HEIGHT : Nat := 32

/-- Static constant `FONTSET_SIZE` of `chip8.h`. -/
abbrev FONTSET_SIZE : Nat := 80

/-- Static constant `FONTSET_START` of `chip8.h`. -/
abbrev FONTSET_START : Nat := 0

/-- Static constant `MEM_START` of `chip8.h`. -/
abbrev MEM_START : Nat := 0x200

/-- Size of `array<uint8_t, 4096> memory`. -/
abbrev MEMORY_SIZE : Nat := 4096

/-- Size of `array<uint32_t, SCREEN_WIDTH * SCREEN_HEIGHT> video`. -/
abbrev VIDEO_SIZE : Nat := SCREEN_WIDTH * SCREEN_HEIGHT

/-- The member `fontset` of `chip8.h`: sixteen glyphs of five bytes. -/
def fontset : List Nat :=
  [0xF0, 0x90, 0x90, 0x90, 0xF0,
   0x20, 0x60, 0x20, 0x20, 0x70,
   0xF0, 0x10, 0xF0, 0x80, 0xF0,
   0xF0, 0x10, 0xF0, 0x10, 0xF0,
   0x90, 0x90, 0xF0, 0x10, 0x10,
   0xF0, 0x80, 0xF0, 0x10, 0xF0,
   0xF0, 0x80, 0xF0, 0x90, 0xF0,
   0xF0, 0x10, 0x20, 0x40, 0x40,
   0xF0, 0x90, 0xF0, 0x90, 0xF0,
   0xF0, 0x90, 0xF0, 0x10, 0xF0,
   0xF0, 0x90, 0xF0, 0x90, 0x90,
   0xE0, 0x90, 0xE0, 0x90, 0xE0,
   0xF0, 0x80, 0x80, 0x80, 0xF0,
   0xE0, 0x90, 0x90, 0x90, 0xE0,
   0xF0, 0x80, 0xF0, 0x80, 0xF0,
   0xF0, 0x80, 0xF0, 0x80, 0x80]

/-- Conversion of an `int` to `uint8_t` (reduction modulo 256). -/
def toU8 (n : Int) : Nat := (n % 256).toNat

/-- Assignment `a[i] = v` on an array seen as a map. -/
def write (a : Nat → Nat) (i v : Nat) : Nat → Nat :=
  fun j => if j = i then v else a j

/-- A counted loop `for (int i = start; i < start + count; i++) body`, where the body may
index out of an array (`none`). -/
def forLoop {σ : Type} (body : Nat → σ → Option σ) : Nat → Nat → σ → Option σ
  | 0, _, s => some s
  | count + 1, i, s => (body i s).bind (forLoop body count (i + 1))

/-- The data members of class `Chip8` (`chip8.h`), with the two output streams. -/
structure Chip8 where
  /-- Member `array<uint8_t, 4096> memory`. -/
  memory : Nat → Nat
  /-- Member `array<uint32_t, 2048> video`. -/
  video : Nat → Nat
  /-- Member `uint16_t index`. -/
  index : Nat
  /-- Member `uint8_t delayTimer`. -/
  delayTimer : Nat
  /-- Member `uint8_t soundTimer`. -/
  soundTimer : Nat
  /-- Member `array<uint8_t, 16> registers`. -/
  registers : Nat → Nat
  /-- Member `uint16_t programCounter`. -/
  programCounter : Nat
  /-- Member `array<uint16_t, 16> stack`. -/
  stack : Nat → Nat
  /-- Member `uint8_t stackPointer`. -/
  stackPointer : Nat
  /-- Member `array<uint8_t, 16> keypad`. -/
  keypad : Nat → Nat
  /-- Member `uint16_t opCode`. -/
  opCode : Nat
  /-- Members `randGen` and `randByte`: the bytes the generator will return, in order. -/
  randGen : Nat → Nat
  /-- Member `bool drawFlag`. -/
  drawFlag : Bool
  /-- Lines written to `std::cout`, newest first. -/
  cout : List String
  /-- Opcodes reported on `std::cerr`, newest first. -/
  cerr : List Nat

/-- The constructor `Chip8::Chip8`.  It assigns neither `delayTimer` nor `soundTimer`, so
their initial values are indeterminate: they are the parameters `delay0` and `sound0`.
The generator is seeded from `std::random_device`, so its output `rng` is a parameter too. -/
def Chip8.new (delay0 sound0 : Nat) (rng : Nat → Nat) : Chip8 :=
  { programCounter := MEM_START
    opCode := 0
    index := 0
    stackPointer := 0
    memory := fun i =>
      if FONTSET_START ≤ i ∧ i < FONTSET_START + FONTSET_SIZE then
        fontset.getD (i - FONTSET_START) 0
      else 0
    video := fun _ => 0
    registers := fun _ => 0
    stack := fun _ => 0
    keypad := fun _ => 0
    delayTimer := delay0
    soundTimer := sound0
    randGen := rng
    drawFlag := false
    cout := []
    cerr := [] }

/-- Body of the copy loop of `Chip8::loadROM`: `memory[MEM_START + i] = buffer[i]`. -/
def loadByte (buffer : List Nat) (i : Nat) (memory : Nat → Nat) : Option (Nat → Nat) :=
  if MEM_START + i < MEMORY_SIZE then
    some (write memory (MEM_START + i) (buffer.getD i 0 % 256))
  else none

/-- The method `Chip8::loadROM`.  The file is `none` when it cannot be opened, else the list
of its bytes. -/
def Chip8.loadROM (s : Chip8) (file : Option (List Nat)) : Option Chip8 :=
  match file with
  | none => some s
  | some buffer =>
    (forLoop (loadByte buffer) buffer.length 0 s.memory).map
      fun m => { s with memory := m }

/-- The method `Chip8::setKeys`: copies sixteen key states into `keypad`. -/
def Chip8.setKeys (s : Chip8) (keys : Nat → Nat) : Chip8 :=
  { s with keypad := fun i => if i < 16 then keys i % 256 else s.keypad i }

/-- Body of the inner loop (over `xline`) of case `DXYN`; the loop state is `video` and
`registers`. -/
def drawPixel (x y yline pixel : Nat) (xline : Nat) (st : (Nat → Nat) × (Nat → Nat)) :
    Option ((Nat → Nat) × (Nat → Nat)) :=
  if pixel &&& (0x80 >>> xline) ≠ 0 then
    if x + xline + (y + yline) * 64 < VIDEO_SIZE then
      let registers := if st.1 (x + xline + (y + yline) * 64) = 1 then write st.2 0xF 1 else st.2
      some (write st.1 (x + xline + (y + yline) * 64)
              (st.1 (x + xline + (y + yline) * 64) ^^^ 1), registers)
    else none
  else some st

/-- Body of the outer loop (over `yline`) of case `DXYN`: reads the sprite row
`memory[index + yline]` and runs the inner loop. -/
def drawRow (memory : Nat → Nat) (index x y : Nat) (yline : Nat)
    (st : (Nat → Nat) × (Nat → Nat)) : Option ((Nat → Nat) × (Nat → Nat)) :=
  if index + yline < MEMORY_SIZE then
    forLoop (drawPixel x y yline (memory (index + yline))) 8 0 st
  else none

/-- Body of the scan loop of case `FX0A`; the loop state is `registers` and `key_pressed`. -/
def scanKey (keypad : Nat → Nat) (X : Nat) (i : Nat) (st : (Nat → Nat) × Bool) :
    Option ((Nat → Nat) × Bool) :=
  if keypad i ≠ 0 then some (write st.1 X i, true) else some st

/-- Body of the loop of case `FX55`: `memory[index + i] = registers[i]`. -/
def storeReg (registers : Nat → Nat) (index : Nat) (i : Nat) (memory : Nat → Nat) :
    Option (Nat → Nat) :=
  if index + i < MEMORY_SIZE then some (write memory (index + i) (registers i)) else none

/-- Body of the loop of case `FX65`: `registers[i] = memory[index + i]`. -/
def loadReg (memory : Nat → Nat) (index : Nat) (i : Nat) (registers : Nat → Nat) :
    Option (Nat → Nat) :=
  if index + i < MEMORY_SIZE then some (write registers i (memory (index + i))) else none

/-- The method `Chip8::execute`.  `X` is `(opCode & 0x0F00) >> 8` and `Y` is
`(opCode & 0x00F0) >> 4`; both are below 16, so `registers[X]`, `registers[Y]` and
`registers[0xF]` never leave the array.  The accesses that can leave their array
(`stack[stackPointer]`, `keypad[registers[X]]`, `memory[index + i]`, `video[...]`) are
checked, and the result is `none` when one does. -/
def Chip8.execute (s : Chip8) (opCode : Nat) : Option Chip8 :=
  let X := (opCode &&& 0x0F00) >>> 8
  let Y := (opCode &&& 0x00F0) >>> 4
  match opCode &&& 0xF000 with
  | 0x0000 =>
    match opCode &&& 0x000F with
    | 0x0000 =>
      some { s with
        video := fun _ => 0
        drawFlag := true
        programCounter := (s.programCounter + 2) % 65536 }
    | 0x000E =>
      let sp := toU8 ((s.stackPointer : Int) - 1)
      if sp < 16 then
        some { s with
          stackPointer := sp
          programCounter := (s.stack sp + 2) % 65536 }
      else none
    | _ => some { s with cerr := opCode :: s.cerr }
  | 0x1000 => some { s with programCounter := opCode &&& 0x0FFF }
  | 0x2000 =>
    if s.stackPointer < 16 then
      some { s with
        stack := write s.stack s.stackPointer s.programCounter
        stackPointer := (s.stackPointer + 1) % 256
        programCounter := opCode &&& 0x0FFF }
    else none
  | 0x3000 =>
    let pc := if (opCode &&& 0x00FF) = s.registers X then (s.programCounter + 2) % 65536
              else s.programCounter
    some { s with programCounter := (pc + 2) % 65536 }
  | 0x4000 =>
    let pc := if (opCode &&& 0x00FF) ≠ s.registers X then (s.programCounter + 2) % 65536
              else s.programCounter
    some { s with programCounter := (pc + 2) % 65536 }
  | 0x5000 =>
    let pc := if s.registers Y = s.registers X then (s.programCounter + 2) % 65536
              else s.programCounter
    some { s with programCounter := (pc + 2) % 65536 }
  | 0x6000 =>
    some { s with
      registers := write s.registers X ((opCode &&& 0x00FF) % 256)
      programCounter := (s.programCounter + 2) % 65536 }
  | 0x7000 =>
    some { s with
      registers := write s.registers X ((s.registers X + (opCode &&& 0x00FF)) % 256)
      programCounter := (s.programCounter + 2) % 65536 }
  | 0x8000 =>
    match opCode &&& 0x000F with
    | 0x0000 =>
      some { s with
        registers := write s.registers X (s.registers Y)
        programCounter := (s.programCounter + 2) % 65536 }
    | 0x0001 =>
      some { s with
        registers := write s.registers X ((s.registers X ||| s.registers Y) % 256)
        programCounter := (s.programCounter + 2) % 65536 }
    | 0x0002 =>
      some { s with
        registers := write s.registers X ((s.registers X &&& s.registers Y) % 256)
        programCounter := (s.programCounter + 2) % 65536 }
    | 0x0003 =>
      some { s with
        registers := write s.registers X ((s.registers X ^^^ s.registers Y) % 256)
        programCounter := (s.programCounter + 2) % 65536 }
    | 0x0004 =>
      let r1 := write s.registers 0xF
        (if (s.registers X : Int) > 0xFF - (s.registers Y : Int) then 1 else 0)
      some { s with
        registers := write r1 X ((r1 X + r1 Y) % 256)
        programCounter := (s.programCounter + 2) % 65536 }
    | 0x0005 =>
      let r1 := write s.registers 0xF (if s.registers X > s.registers Y then 1 else 0)
      some { s with
        registers := write r1 X (toU8 ((r1 X : Int) - (r1 Y : Int)))
        programCounter := (s.programCounter + 2) % 65536 }
    | 0x0006 =>
      let r1 := write s.registers 0xF ((s.registers X &&& 0x1) % 256)
      some { s with
        registers := write r1 X ((r1 X >>> 1) % 256)
        programCounter := (s.programCounter + 2) % 65536 }
    | 0x0007 =>
      let r1 := write s.registers 0xF (if s.registers Y > s.registers X then 1 else 0)
      some { s with
        registers := write r1 X (toU8 ((r1 Y : Int) - (r1 X : Int)))
        programCounter := (s.programCounter + 2) % 65536 }
    | 0x000E =>
      let r1 := write s.registers 0xF ((s.registers X >>> 7) % 256)
      some { s with
        registers := write r1 X ((r1 X <<< 1) % 256)
        programCounter := (s.programCounter + 2) % 65536 }
    | _ => some { s with cerr := opCode :: s.cerr }
  | 0x9000 =>
    let pc := if s.registers Y ≠ s.registers X then (s.programCounter + 2) % 65536
              else s.programCounter
    some { s with programCounter := (pc + 2) % 65536 }
  | 0xA000 =>
    some { s with
      index := opCode &&& 0x0FFF
      programCounter := (s.programCounter + 2) % 65536 }
  | 0xB000 => some { s with programCounter := ((opCode &&& 0x0FFF) + s.registers 0) % 65536 }
  | 0xC000 =>
    some { s with
      registers := write s.registers X (((s.randGen 0 % 256) &&& (opCode &&& 0x00FF)) % 256)
      randGen := fun n => s.randGen (n + 1)
      programCounter := (s.programCounter + 2) % 65536 }
  | 0xD000 =>
    let x := s.registers X
    let y := s.registers Y
    let height := (opCode &&& 0x000F) % 256
    match forLoop (drawRow s.memory s.index x y) height 0 (s.video, write s.registers 0xF 0) with
    | some (video, registers) =>
      some { s with
        video := video
        registers := registers
        drawFlag := true
        programCounter := (s.programCounter + 2) % 65536 }
    | none => none
  | 0xE000 =>
    match opCode &&& 0x00FF with
    | 0x009E =>
      if s.registers X < 16 then
        let pc := if s.keypad (s.registers X) ≠ 0 then (s.programCounter + 2) % 65536
                  else s.programCounter
        some { s with programCounter := (pc + 2) % 65536 }
      else none
    | 0x00A1 =>
      if s.registers X < 16 then
        let pc := if s.keypad (s.registers X) = 0 then (s.programCounter + 2) % 65536
                  else s.programCounter
        some { s with programCounter := (pc + 2) % 65536 }
      else none
    | _ => some { s with cerr := opCode :: s.cerr }
  | 0xF000 =>
    match opCode &&& 0x00FF with
    | 0x0007 =>
      some { s with
        registers := write s.registers X s.delayTimer
        programCounter := (s.programCounter + 2) % 65536 }
    | 0x000A =>
      match forLoop (scanKey s.keypad X) 16 0 (s.registers, false) with
      | some (registers, key_pressed) =>
        if !key_pressed then some { s with registers := registers }
        else some { s with
          registers := registers
          programCounter := (s.programCounter + 2) % 65536 }
      | none => none
    | 0x0015 =>
      some { s with
        delayTimer := s.registers X
        programCounter := (s.programCounter + 2) % 65536 }
    | 0x0018 =>
      some { s with
        soundTimer := s.registers X
        programCounter := (s.programCounter + 2) % 65536 }
    | 0x001E =>
      let r1 := write s.registers 0xF (if s.index + s.registers X > 0xFFF then 1 else 0)
      some { s with
        registers := r1
        index := (s.index + r1 X) % 65536
        programCounter := (s.programCounter + 2) % 65536 }
    | 0x0029 =>
      some { s with
        index := (s.registers X * 0x5) % 65536
        programCounter := (s.programCounter + 2) % 65536 }
    | 0x0033 =>
      if s.index < MEMORY_SIZE ∧ s.index + 1 < MEMORY_SIZE ∧ s.index + 2 < MEMORY_SIZE then
        let m1 := write s.memory s.index ((s.registers X / 100) % 256)
        let m2 := write m1 (s.index + 1) (((s.registers X / 10) % 10) % 256)
        let m3 := write m2 (s.index + 2) ((s.registers X % 10) % 256)
        some { s with
          memory := m3
          programCounter := (s.programCounter + 2) % 65536 }
      else none
    | 0x0055 =>
      (forLoop (storeReg s.registers s.index) (X + 1) 0 s.memory).map fun memory =>
        { s with
          memory := memory
          index := (s.index + (X + 1)) % 65536
          programCounter := (s.programCounter + 2) % 65536 }
    | 0x0065 =>
      (forLoop (loadReg s.memory s.index) (X + 1) 0 s.registers).map fun registers =>
        { s with
          registers := registers
          index := (s.index + (X + 1)) % 65536
          programCounter := (s.programCounter + 2) % 65536 }
    | _ => some { s with cerr := opCode :: s.cerr }
  | _ => some { s with cerr := opCode :: s.cerr }

/-- The method `Chip8::emulateCycle`: fetch at `programCounter`, `execute`, then the timer
tick, which writes `BEEP!` to `std::cout` when the sound timer is 1 before its decrement. -/
def Chip8.emulateCycle (s : Chip8) : Option Chip8 :=
  if s.programCounter < MEMORY_SIZE ∧ s.programCounter + 1 < MEMORY_SIZE then
    let opCode := ((s.memory s.programCounter <<< 8) ||| s.memory (s.programCounter + 1)) % 65536
    match Chip8.execute { s with opCode := opCode } opCode with
    | none => none
    | some s1 =>
      let s2 := if s1.delayTimer > 0 then { s1 with delayTimer := toU8 ((s1.delayTimer : Int) - 1) }
                else s1
      if s2.soundTimer > 0 then
        let s3 := if s2.soundTimer = 1 then { s2 with cout := "BEEP!" :: s2.cout } else s2
        some { s3 with soundTimer := toU8 ((s3.soundTimer : Int) - 1) }
      else some s2
  else none

/-- Runs `n` calls of `Chip8::emulateCycle` in a row. -/
def runCycles : Nat → Chip8 → Option Chip8
  | 0, s => some s
  | n + 1, s => (Chip8.emulateCycle s).bind (runCycles n)

/-! ## Definitions used to state the theorems -/

/-- The opcode that `emulateCycle` fetches: `memory[pc] << 8 | memory[pc + 1]`. -/
def fetch (s : Chip8) : Nat :=
  ((s.memory s.programCounter <<< 8) ||| s.memory (s.programCounter + 1)) % 65536

/-- The timer part of `emulateCycle`, applied to the state that `execute` returns. -/
def timerTick (s1 : Chip8) : Chip8 :=
  { s1 with
    delayTimer := if s1.delayTimer > 0 then toU8 ((s1.delayTimer : Int) - 1) else s1.delayTimer
    soundTimer := if s1.soundTimer > 0 then toU8 ((s1.soundTimer : Int) - 1) else s1.soundTimer
    cout := if s1.soundTimer = 1 then "BEEP!" :: s1.cout else s1.cout }

/-- The cells that a DXYN at `(x, y)` with `N` rows flips: one cell `x + c + (y + r) * 64` for
every set bit (row `r`, column `c`) of the sprite at `memory[index ..]`. -/
def spriteCell (s : Chip8) (x y N : Nat) (p : Nat) : Prop :=
  ∃ r, r < N ∧ ∃ c, c < 8 ∧ s.memory (s.index + r) &&& (0x80 >>> c) ≠ 0 ∧
    p = x + c + (y + r) * 64

/-- Membership in the set of cells a DXYN flips can be computed. -/
instance spriteCellDecidable (s : Chip8) (x y N p : Nat) : Decidable (spriteCell s x y N p) := by
  unfold spriteCell
  infer_instance

/-- Says that `f` always succeeds, flips (xor 1) exactly the video cells in `T`, and sets
register F to 1 exactly when one of these cells held 1 (else leaves the registers). -/
def Toggles (f : (Nat → Nat) × (Nat → Nat) → Option ((Nat → Nat) × (Nat → Nat)))
    (T : Nat → Prop) : Prop :=
  ∀ st, ∃ st', f st = some st' ∧
    (∀ p, T p → st'.1 p = st.1 p ^^^ 1) ∧ (∀ p, ¬ T p → st'.1 p = st.1 p) ∧
    ((∃ p, T p ∧ st.1 p = 1) → st'.2 = write st.2 0xF 1) ∧
    ((¬ ∃ p, T p ∧ st.1 p = 1) → st'.2 = st.2)

/-- Says that the opcode reaches one of the `default:` branches of `Chip8::execute`: a word
of family 0 whose low nibble is neither 0 nor E, of family 8 whose low nibble is none of
0..7, E, of family E whose low byte is neither 9E nor A1, or of family F whose low byte is
none of 07, 0A, 15, 18, 1E, 29, 33, 55, 65. -/
def reachesDefault (opCode : Nat) : Prop :=
  (opCode &&& 0xF000 = 0x0000 ∧ opCode &&& 0x000F ∉ [0x0, 0xE]) ∨
  (opCode &&& 0xF000 = 0x8000 ∧
    opCode &&& 0x000F ∉ [0x0, 0x1, 0x2, 0x3, 0x4, 0x5, 0x6, 0x7, 0xE]) ∨
  (opCode &&& 0xF000 = 0xE000 ∧ opCode &&& 0x00FF ∉ [0x9E, 0xA1]) ∨
  (opCode &&& 0xF000 = 0xF000 ∧
    opCode &&& 0x00FF ∉ [0x07, 0x0A, 0x15, 0x18, 0x1E, 0x29, 0x33, 0x55, 0x65])

/-- Whether an opcode reaches a `default:` branch can be computed. -/
instance reachesDefaultDecidable (opCode : Nat) : Decidable (reachesDefault opCode) := by
  unfold reachesDefault
  infer_instance

/-- The states the program can be in: the constructed machine, and every state obtained from
a reachable one by a `loadROM`, a `setKeys` or an `emulateCycle` that returns, that is, that
did not index outside an array. -/
inductive Reachable : Chip8 → Prop
  | construct (delay0 sound0 : Nat) (rng : Nat → Nat) : Reachable (Chip8.new delay0 sound0 rng)
  | load (s s' : Chip8) (file : Option (List Nat)) :
      Reachable s → s.loadROM file = some s' → Reachable s'
  | keys (s : Chip8) (keys : Nat → Nat) : Reachable s → Reachable (s.setKeys keys)
  | cycle (s s' : Chip8) : Reachable s → s.emulateCycle = some s' → Reachable s'

/-! ## Concrete machines used to evaluate the code -/

/-- A machine just constructed whose registers are then set to the map `regs`. -/
def withRegisters (regs : Nat → Nat) : Chip8 :=
  { Chip8.new 0 0 (fun _ => 0) with registers := regs }

/-- Sets the index register of a machine. -/
def withIndex (s : Chip8) (i : Nat) : Chip8 := { s with index := i }

/-- A machine just constructed whose keypad is then set by `setKeys keys`. -/
def withKeypad (keys : Nat → Nat) : Chip8 :=
  (Chip8.new 0 0 (fun _ => 0)).setKeys keys

/-- A key snapshot with the keys 1 and 2 down. -/
def keys12 : Nat → Nat := fun i => if i = 1 ∨ i = 2 then 1 else 0

/-- A machine just constructed (both timers at 0) after `loadROM` of the bytes `rom`. -/
def loaded (rom : List Nat) : Chip8 :=
  ((Chip8.new 0 0 (fun _ => 0)).loadROM (some rom)).getD (Chip8.new 0 0 (fun _ => 0))

/-- Machine with VF = 5 and the index register at the glyph of digit 0. -/
def drawFlagOperand : Chip8 := withRegisters (write (fun _ => 0) 0xF 5)

/-- Machine with V1 = 32: a sprite drawn at `(V0, V1)` starts below the last screen row. -/
def drawBelowScreen : Chip8 := withRegisters (write (fun _ => 0) 1 32)

/-- Machine with all registers 0 and the index register at the last byte of memory. -/
def drawAtMemoryEnd : Chip8 := withIndex (withRegisters (fun _ => 0)) 4095

/-- Machine with V0 = 62 and V1 = 0: a sprite drawn at `(V0, V1)` crosses the right edge. -/
def drawAtRightEdge : Chip8 := withRegisters (write (fun _ => 0) 0 62)

/-- Machine with V0 = 3 and V1 = 4 and the index register at the glyph of digit 0. -/
def drawInside : Chip8 := withRegisters (write (write (fun _ => 0) 0 3) 1 4)

/-- The machine `drawInside` with the framebuffer cell 259 (row 4, column 3) already on. -/
def drawOverlap : Chip8 := { drawInside with video := write (fun _ => 0) 259 1 }

/-- Machine with V2 = 234 and the index register at 0x300. -/
def bcdDemo : Chip8 := withIndex (withRegisters (write (fun _ => 0) 2 234)) 0x300

/-- Machine with V3 = 1 whose program starts with `F3 18` (sound timer := V3). -/
def beepDemo : Chip8 :=
  { loaded [0xF3, 0x18, 0x60, 0x00] with registers := write (fun _ => 0) 3 1 }

/-- Sets the two timers of a machine. -/
def withTimers (s : Chip8) (delay sound : Nat) : Chip8 :=
  { s with delayTimer := delay, soundTimer := sound }

/-- Machine with the stack pointer at 16 (a full stack). -/
def stackFull : Chip8 := { Chip8.new 0 0 (fun _ => 0) with stackPointer := 16 }

/-- Machine with program counter 0x2A4 and stack pointer 3. -/
def callDemo : Chip8 :=
  { Chip8.new 0 0 (fun _ => 0) with programCounter := 0x2A4, stackPointer := 3 }

/-- Machine with V0 = 16, V1 = 7, V2 = 7 and key 7 down. -/
def skipDemo : Chip8 :=
  { withKeypad (fun i => if i = 7 then 1 else 0) with
    registers := write (write (write (fun _ => 0) 0 16) 1 7) 2 7 }

/-- Machine with the stack pointer at 1 and the return address 0x300 in stack slot 0. -/
def returnDemo : Chip8 :=
  { Chip8.new 0 0 (fun _ => 0) with stackPointer := 1, stack := write (fun _ => 0) 0 0x300 }

/-- Machine with VF = 5 and the index register at 0x300. -/
def indexFlagOperand : Chip8 := withIndex (withRegisters (write (fun _ => 0) 0xF 5)) 0x300

/-- The ROM `01 20` loaded on a fresh machine, then cell 7 of the framebuffer switched on. -/
def litScreen : Chip8 := { loaded [0x01, 0x20] with video := write (fun _ => 0) 7 1 }

/-- The state after one cycle of the ROM `D0 15` (draw the glyph of 0 at the origin). -/
def drawnOnce : Chip8 := ((loaded [0xD0, 0x15]).emulateCycle).getD (loaded [0xD0, 0x15])

/-- The ROM `AF FF F1 55` on a fresh machine: set the index register to 0xFFF, then store
V0..V1 from there. -/
def storePastMemory : Chip8 := loaded [0xAF, 0xFF, 0xF1, 0x55]

/-! # Theorems -/

/-! ## Decoding of the opcode fields -/

/-- Shifting right distributes over bitwise and. -/
theorem shiftRight_and (a b i : Nat) : (a &&& b) >>> i = (a >>> i) &&& (b >>> i) := by
  apply Nat.eq_of_testBit_eq
  intro j
  simp

/-- The mask `0x000F` keeps the low nibble. -/
theorem and_000F (op : Nat) : op &&& 0x000F = op % 16 :=
  Nat.and_pow_two_sub_one_eq_mod op 4

/-- The mask `0x00FF` keeps the low byte `KK`. -/
theorem and_00FF (op : Nat) : op &&& 0x00FF = op % 256 :=
  Nat.and_pow_two_sub_one_eq_mod op 8

/-- The mask `0x0FFF` keeps the address `NNN`. -/
theorem and_0FFF (op : Nat) : op &&& 0x0FFF = op % 4096 :=
  Nat.and_pow_two_sub_one_eq_mod op 12

/-- The field `X = (opCode & 0x0F00) >> 8` is the second nibble. -/
theorem and_0F00_shift (op : Nat) : (op &&& 0x0F00) >>> 8 = op / 256 % 16 := by
  rw [shiftRight_and, Nat.shiftRight_eq_div_pow]
  exact Nat.and_pow_two_sub_one_eq_mod (op / 2 ^ 8) 4

/-- The field `Y = (opCode & 0x00F0) >> 4` is the third nibble. -/
theorem and_00F0_shift (op : Nat) : (op &&& 0x00F0) >>> 4 = op / 16 % 16 := by
  rw [shiftRight_and, Nat.shiftRight_eq_div_pow]
  exact Nat.and_pow_two_sub_one_eq_mod (op / 2 ^ 4) 4

/-- The mask `0xF000` keeps the first nibble in place. -/
theorem and_F000 (op : Nat) : op &&& 0xF000 = (op / 4096 % 16) * 4096 := by
  have h1 : (op &&& 0xF000) >>> 12 = op / 4096 % 16 := by
    rw [shiftRight_and, Nat.shiftRight_eq_div_pow]
    exact Nat.and_pow_two_sub_one_eq_mod (op / 2 ^ 12) 4
  have h2 : (op &&& 0xF000) % 4096 = 0 := by
    rw [← and_0FFF, Nat.and_assoc]
    exact Nat.and_zero op
  rw [Nat.shiftRight_eq_div_pow] at h1
  omega

/-- Reading the cell just written gives the value written. -/
@[simp] theorem write_same (a : Nat → Nat) (i v : Nat) : write a i v i = v := by
  simp [write]

/-- Reading another cell than the one written gives the old value. -/
theorem write_other (a : Nat → Nat) (i v j : Nat) (h : j ≠ i) : write a i v j = a j := by
  simp [write, h]

/-! ## C1: add-reg (8XY4) -/

/-- C1 (as stated, refuted): with `Y = F` the flag is written to register F before the add
reads it.  From V0 = 1 and VF = 5 the opcode `0x80F4` does not leave `(1 + 5) mod 256` in V0
with VF = 0. -/
theorem add_reg_flag_operand_counterexample :
    (withRegisters (write (write (fun _ => 0) 0 1) 0xF 5)).registers 0 = 1 ∧
    (withRegisters (write (write (fun _ => 0) 0 1) 0xF 5)).registers 0xF = 5 ∧
    ¬ ∃ s', (withRegisters (write (write (fun _ => 0) 0 1) 0xF 5)).execute 0x80F4 = some s' ∧
        s'.registers 0 = (1 + 5) % 256 ∧ s'.registers 0xF = (if 1 + 5 > 255 then 1 else 0) := by
  refine ⟨by decide, by decide, ?_⟩
  rintro ⟨s', h, h0, -⟩
  have h1 : ((withRegisters (write (write (fun _ => 0) 0 1) 0xF 5)).execute 0x80F4).map
      (fun t => t.registers 0) = some 1 := by decide
  rw [h] at h1
  simp at h1
  omega

/-- C1 (amended): for registers X and Y other than F holding the 8-bit values `a` and `b`,
`execute` of 8XY4 succeeds, leaves `(a + b) mod 256` in register X and sets register F to 1
if `a + b > 255` and to 0 otherwise. -/
theorem add_reg_carry (s : Chip8) (X Y a b : Nat) (hX : X < 16) (hY : Y < 16)
    (hXF : X ≠ 0xF) (hYF : Y ≠ 0xF) (_ha : a < 256) (_hb : b < 256)
    (hXa : s.registers X = a) (hYb : s.registers Y = b) :
    ∃ s', s.execute (0x8004 + 256 * X + 16 * Y) = some s' ∧
      s'.registers X = (a + b) % 256 ∧
      s'.registers 0xF = (if a + b > 255 then 1 else 0) := by
  have h1 : (0x8004 + 256 * X + 16 * Y) &&& 0xF000 = 0x8000 := by rw [and_F000]; omega
  have h2 : (0x8004 + 256 * X + 16 * Y) &&& 0x000F = 0x0004 := by rw [and_000F]; omega
  have h3 : ((0x8004 + 256 * X + 16 * Y) &&& 0x0F00) >>> 8 = X := by rw [and_0F00_shift]; omega
  have h4 : ((0x8004 + 256 * X + 16 * Y) &&& 0x00F0) >>> 4 = Y := by rw [and_00F0_shift]; omega
  refine ⟨_, by simp only [Chip8.execute, h1, h2, h3, h4]; rfl, ?_, ?_⟩
  · simp [write_other _ _ _ _ hXF, write_other _ _ _ _ hYF, hXa, hYb]
  · simp [write_other _ _ _ _ (Ne.symm hXF), hXa, hYb]
    split_ifs <;> omega

/-- Witness for C1: V1 = 200 and V2 = 100 give V1 = 44 with carry. -/
theorem add_reg_carry_witness :
    ∃ s', (withRegisters (write (write (fun _ => 0) 1 200) 2 100)).execute
        (0x8004 + 256 * 1 + 16 * 2) = some s' ∧
      s'.registers 1 = (200 + 100) % 256 ∧
      s'.registers 0xF = (if 200 + 100 > 255 then 1 else 0) :=
  add_reg_carry (withRegisters (write (write (fun _ => 0) 1 200) 2 100)) 1 2 200 100
    (by decide) (by decide) (by decide) (by decide) (by decide) (by decide)
    (by decide) (by decide)

/-! ## C2: shift-right (8XY6) and shift-left (8XYE) -/

/-- C2 (as stated, refuted): with `X = F` the shift is applied to the flag just written.
From VF = 1 the opcode `0x8F06` leaves VF = 0, not the least-significant bit 1; from
VF = 0x80 the opcode `0x8F0E` leaves VF = 2, not the most-significant bit 1. -/
theorem shift_flag_register_counterexample :
    (withRegisters (write (fun _ => 0) 0xF 1)).registers 0xF = 1 ∧
    (¬ ∃ s', (withRegisters (write (fun _ => 0) 0xF 1)).execute 0x8F06 = some s' ∧
        s'.registers 0xF = 1 % 2) ∧
    (withRegisters (write (fun _ => 0) 0xF 0x80)).registers 0xF = 0x80 ∧
    (¬ ∃ s', (withRegisters (write (fun _ => 0) 0xF 0x80)).execute 0x8F0E = some s' ∧
        s'.registers 0xF = 0x80 / 128) := by
  refine ⟨by decide, ?_, by decide, ?_⟩
  · rintro ⟨s', h, h0⟩
    have h1 : ((withRegisters (write (fun _ => 0) 0xF 1)).execute 0x8F06).map
        (fun t => t.registers 0xF) = some 0 := by decide
    rw [h] at h1
    simp at h1
    omega
  · rintro ⟨s', h, h0⟩
    have h1 : ((withRegisters (write (fun _ => 0) 0xF 0x80)).execute 0x8F0E).map
        (fun t => t.registers 0xF) = some 2 := by decide
    rw [h] at h1
    simp at h1
    omega

/-- C2 (amended): for a register X other than F holding the 8-bit value `v`, `execute` of
8XY6 succeeds and sets register F to the least-significant bit `v mod 2` (register X becomes
`v / 2`), and `execute` of 8XYE succeeds and sets register F to the most-significant bit
`v / 128` (register X becomes `2 v mod 256`). -/
theorem shift_flag (s : Chip8) (X Y v : Nat) (hX : X < 16) (hY : Y < 16) (hXF : X ≠ 0xF)
    (hv : v < 256) (hXv : s.registers X = v) :
    (∃ s', s.execute (0x8006 + 256 * X + 16 * Y) = some s' ∧
      s'.registers 0xF = v % 2 ∧ s'.registers X = v / 2) ∧
    (∃ s', s.execute (0x800E + 256 * X + 16 * Y) = some s' ∧
      s'.registers 0xF = v / 128 ∧ s'.registers X = (2 * v) % 256) := by
  constructor
  · have h1 : (0x8006 + 256 * X + 16 * Y) &&& 0xF000 = 0x8000 := by rw [and_F000]; omega
    have h2 : (0x8006 + 256 * X + 16 * Y) &&& 0x000F = 0x0006 := by rw [and_000F]; omega
    have h3 : ((0x8006 + 256 * X + 16 * Y) &&& 0x0F00) >>> 8 = X := by
      rw [and_0F00_shift]; omega
    refine ⟨_, by simp only [Chip8.execute, h1, h2, h3]; rfl, ?_, ?_⟩
    · simp only [write_other _ _ _ _ (Ne.symm hXF), write_same, hXv, Nat.and_one_is_mod]
      omega
    · simp only [write_other _ _ _ _ hXF, write_same, hXv, Nat.shiftRight_eq_div_pow]
      omega
  · have h1 : (0x800E + 256 * X + 16 * Y) &&& 0xF000 = 0x8000 := by rw [and_F000]; omega
    have h2 : (0x800E + 256 * X + 16 * Y) &&& 0x000F = 0x000E := by rw [and_000F]; omega
    have h3 : ((0x800E + 256 * X + 16 * Y) &&& 0x0F00) >>> 8 = X := by
      rw [and_0F00_shift]; omega
    refine ⟨_, by simp only [Chip8.execute, h1, h2, h3]; rfl, ?_, ?_⟩
    · simp only [write_other _ _ _ _ (Ne.symm hXF), write_same, hXv, Nat.shiftRight_eq_div_pow]
      omega
    · simp only [write_other _ _ _ _ hXF, write_same, hXv, Nat.shiftLeft_eq]
      omega

/-- Witness for C2: V3 = 0x81 has both its lowest and its highest bit set. -/
theorem shift_flag_witness :
    (∃ s', (withRegisters (write (fun _ => 0) 3 0x81)).execute
        (0x8006 + 256 * 3 + 16 * 0) = some s' ∧
      s'.registers 0xF = 0x81 % 2 ∧ s'.registers 3 = 0x81 / 2) ∧
    (∃ s', (withRegisters (write (fun _ => 0) 3 0x81)).execute
        (0x800E + 256 * 3 + 16 * 0) = some s' ∧
      s'.registers 0xF = 0x81 / 128 ∧ s'.registers 3 = (2 * 0x81) % 256) :=
  shift_flag (withRegisters (write (fun _ => 0) 3 0x81)) 3 0 0x81
    (by decide) (by decide) (by decide) (by decide) (by decide)

/-! ## C3: wait-for-key (FX0A) with a key down -/

/-- A second write to the same cell overwrites the first. -/
@[simp] theorem write_write (a : Nat → Nat) (i v w : Nat) :
    write (write a i v) i w = write a i w := by
  funext j
  simp only [write]
  split_ifs <;> rfl

/-- The scan of FX0A over keys that are all up changes nothing. -/
theorem scanKey_none (keypad : Nat → Nat) (X : Nat) :
    ∀ (n i0 : Nat) (st : (Nat → Nat) × Bool),
      (∀ j, i0 ≤ j → j < i0 + n → keypad j = 0) →
      forLoop (scanKey keypad X) n i0 st = some st := by
  intro n
  induction n with
  | zero => intro i0 st _; rfl
  | succ n ih =>
    intro i0 st h
    have h0 : keypad i0 = 0 := h i0 (le_refl _) (by omega)
    simp only [forLoop, scanKey, h0, ne_eq, not_true_eq_false, if_false, Option.some_bind]
    exact ih (i0 + 1) st (fun j hj1 hj2 => h j (by omega) (by omega))

/-- The scan of FX0A leaves in register X the highest key that is down. -/
theorem scanKey_highest (keypad : Nat → Nat) (X i : Nat) (hi : keypad i ≠ 0) :
    ∀ (n i0 : Nat) (st : (Nat → Nat) × Bool),
      i0 ≤ i → i < i0 + n → (∀ j, i < j → j < i0 + n → keypad j = 0) →
      forLoop (scanKey keypad X) n i0 st = some (write st.1 X i, true) := by
  intro n
  induction n with
  | zero => intro i0 st h1 h2; omega
  | succ n ih =>
    intro i0 st h1 h2 h3
    by_cases hc : i0 = i
    · subst hc
      simp only [forLoop, scanKey, hi, ne_eq, not_false_eq_true, if_true, Option.some_bind]
      exact scanKey_none keypad X n (i0 + 1) _ (fun j hj1 hj2 => h3 j (by omega) (by omega))
    · have hstep : ∃ st1, scanKey keypad X i0 st = some st1 ∧ write st1.1 X i = write st.1 X i := by
        unfold scanKey
        split_ifs
        · exact ⟨_, rfl, write_write _ _ _ _⟩
        · exact ⟨_, rfl, rfl⟩
      obtain ⟨st1, hs1, hs2⟩ := hstep
      simp only [forLoop, hs1, Option.some_bind]
      rw [ih (i0 + 1) st1 (by omega) (by omega) (fun j hj1 hj2 => h3 j hj1 (by omega)), hs2]

/-- C3 (as stated, refuted): the scan has no `break`, so the last key found wins.  With keys
1 and 2 down (key 0 up) the lowest key down is 1, but `0xF00A` does not leave 1 in V0. -/
theorem wait_key_lowest_counterexample :
    (withKeypad keys12).keypad 0 = 0 ∧ (withKeypad keys12).keypad 1 ≠ 0 ∧
    ¬ ∃ s', (withKeypad keys12).execute 0xF00A = some s' ∧ s'.registers 0 = 1 := by
  refine ⟨by decide, by decide, ?_⟩
  rintro ⟨s', h, h0⟩
  have h1 : ((withKeypad keys12).execute 0xF00A).map (fun t => t.registers 0) = some 2 := by
    decide
  rw [h] at h1
  simp at h1
  omega

/-- C3 (amended): when some key of the keypad is down, `execute` of FX0A succeeds, sets
register X to the highest index `i` in 0..15 whose key is down, and sets the program counter
to `(pc + 2) mod 65536`, which is `pc + 2` unless the 16-bit counter wraps. -/
theorem wait_key_highest (s : Chip8) (X : Nat) (hX : X < 16)
    (hdown : ∃ k, k < 16 ∧ s.keypad k ≠ 0) :
    ∃ s' i, s.execute (0xF00A + 256 * X) = some s' ∧
      i < 16 ∧ s.keypad i ≠ 0 ∧ (∀ j, i < j → j < 16 → s.keypad j = 0) ∧
      s'.registers X = i ∧
      s'.programCounter = (s.programCounter + 2) % 65536 ∧
      (s.programCounter + 2 < 65536 → s'.programCounter = s.programCounter + 2) := by
  obtain ⟨k, hk, hkd⟩ := hdown
  have hspec : s.keypad (Nat.findGreatest (fun j => s.keypad j ≠ 0) 15) ≠ 0 :=
    Nat.findGreatest_spec (P := fun j => s.keypad j ≠ 0) (by omega : k ≤ 15) hkd
  have hle : Nat.findGreatest (fun j => s.keypad j ≠ 0) 15 ≤ 15 := Nat.findGreatest_le 15
  have hgt : ∀ j, Nat.findGreatest (fun j => s.keypad j ≠ 0) 15 < j → j < 16 → s.keypad j = 0 := by
    intro j hj1 hj2
    have := Nat.findGreatest_is_greatest (P := fun j => s.keypad j ≠ 0) hj1 (by omega : j ≤ 15)
    simpa using this
  have h1 : (0xF00A + 256 * X) &&& 0xF000 = 0xF000 := by rw [and_F000]; omega
  have h2 : (0xF00A + 256 * X) &&& 0x00FF = 0x000A := by rw [and_00FF]; omega
  have h3 : ((0xF00A + 256 * X) &&& 0x0F00) >>> 8 = X := by rw [and_0F00_shift]; omega
  have hloop := scanKey_highest s.keypad X _ hspec 16 0 (s.registers, false) (Nat.zero_le _)
    (by omega) (fun j hj1 hj2 => hgt j hj1 (by omega))
  have hexec : s.execute (0xF00A + 256 * X) = some { s with
      registers := write s.registers X (Nat.findGreatest (fun j => s.keypad j ≠ 0) 15)
      programCounter := (s.programCounter + 2) % 65536 } := by
    simp only [Chip8.execute, h1, h2, h3, hloop]
    rfl
  refine ⟨_, Nat.findGreatest (fun j => s.keypad j ≠ 0) 15, hexec, by omega, hspec, hgt,
    write_same _ _ _, rfl, ?_⟩
  intro h
  exact Nat.mod_eq_of_lt h
/-- Witness for C3: keys 1 and 2 down, destination register V4. -/
theorem wait_key_highest_witness :
    ∃ s' i, (withKeypad keys12).execute (0xF00A + 256 * 4) = some s' ∧
      i < 16 ∧ (withKeypad keys12).keypad i ≠ 0 ∧
      (∀ j, i < j → j < 16 → (withKeypad keys12).keypad j = 0) ∧
      s'.registers 4 = i ∧
      s'.programCounter = ((withKeypad keys12).programCounter + 2) % 65536 ∧
      ((withKeypad keys12).programCounter + 2 < 65536 →
        s'.programCounter = (withKeypad keys12).programCounter + 2) :=
  wait_key_highest (withKeypad keys12) 4 (by decide) ⟨1, by decide, by decide⟩

/-! ## C4: wait-for-key (FX0A) with no key down -/

/-- One cycle on a stalled FX0A: everything but timers, `opCode` and `cout` is unchanged. -/
theorem emulateCycle_wait_key (s : Chip8) (X : Nat) (hX : X < 16)
    (hpc : s.programCounter + 1 < 4096)
    (hhi : s.memory s.programCounter = 0xF0 + X) (hlo : s.memory (s.programCounter + 1) = 0x0A)
    (hkeys : ∀ j, j < 16 → s.keypad j = 0) :
    ∃ s', s.emulateCycle = some s' ∧
      s'.programCounter = s.programCounter ∧ s'.registers = s.registers ∧
      s'.index = s.index ∧ s'.memory = s.memory ∧ s'.stack = s.stack ∧
      s'.stackPointer = s.stackPointer ∧ s'.video = s.video ∧ s'.drawFlag = s.drawFlag ∧
      s'.keypad = s.keypad := by
  have hop : ((s.memory s.programCounter <<< 8) ||| s.memory (s.programCounter + 1)) % 65536
      = 0xF00A + 256 * X := by
    rw [hhi, hlo]
    interval_cases X <;> rfl
  have h1 : (0xF00A + 256 * X) &&& 0xF000 = 0xF000 := by rw [and_F000]; omega
  have h2 : (0xF00A + 256 * X) &&& 0x00FF = 0x000A := by rw [and_00FF]; omega
  have h3 : ((0xF00A + 256 * X) &&& 0x0F00) >>> 8 = X := by rw [and_0F00_shift]; omega
  have hloop := scanKey_none s.keypad X 16 0 (s.registers, false)
    (fun j _ hj2 => hkeys j (by omega))
  have hexec : Chip8.execute { s with opCode := 0xF00A + 256 * X } (0xF00A + 256 * X)
      = some { s with opCode := 0xF00A + 256 * X } := by
    simp only [Chip8.execute, h1, h2, h3, hloop]
    rfl
  have hpc2 : s.programCounter < 4096 ∧ s.programCounter + 1 < 4096 := ⟨by omega, hpc⟩
  simp only [Chip8.emulateCycle, hpc2, and_self, if_true, hop, hexec]
  split_ifs <;> exact ⟨_, rfl, rfl, rfl, rfl, rfl, rfl, rfl, rfl, rfl, rfl⟩

/-- C4: when the program counter points at an FX0A instruction inside memory and all
sixteen keys are up, any number `n` of cycles succeeds and leaves the program counter, the
registers, the index register, memory, stack, stack pointer and framebuffer (with its dirty
flag) and the keypad unchanged, so the next cycle fetches the same instruction again. -/
theorem wait_key_stalls (s : Chip8) (X n : Nat) (hX : X < 16)
    (hpc : s.programCounter + 1 < 4096)
    (hhi : s.memory s.programCounter = 0xF0 + X) (hlo : s.memory (s.programCounter + 1) = 0x0A)
    (hkeys : ∀ j, j < 16 → s.keypad j = 0) :
    ∃ s', runCycles n s = some s' ∧
      s'.programCounter = s.programCounter ∧ s'.registers = s.registers ∧
      s'.index = s.index ∧ s'.memory = s.memory ∧ s'.stack = s.stack ∧
      s'.stackPointer = s.stackPointer ∧ s'.video = s.video ∧ s'.drawFlag = s.drawFlag ∧
      s'.keypad = s.keypad ∧ fetch s' = fetch s := by
  induction n generalizing s with
  | zero => exact ⟨s, rfl, rfl, rfl, rfl, rfl, rfl, rfl, rfl, rfl, rfl, rfl⟩
  | succ n ih =>
    obtain ⟨s1, hs1, e1, e2, e3, e4, e5, e6, e7, e8, e9⟩ :=
      emulateCycle_wait_key s X hX hpc hhi hlo hkeys
    obtain ⟨s2, hs2, f1, f2, f3, f4, f5, f6, f7, f8, f9, f10⟩ :=
      ih s1 (by rw [e1]; exact hpc) (by rw [e4, e1]; exact hhi) (by rw [e4, e1]; exact hlo)
        (by rw [e9]; exact hkeys)
    refine ⟨s2, by simp only [runCycles, hs1, Option.some_bind, hs2],
      ?_, ?_, ?_, ?_, ?_, ?_, ?_, ?_, ?_, ?_⟩
    · rw [f1, e1]
    · rw [f2, e2]
    · rw [f3, e3]
    · rw [f4, e4]
    · rw [f5, e5]
    · rw [f6, e6]
    · rw [f7, e7]
    · rw [f8, e8]
    · rw [f9, e9]
    · rw [f10, fetch, fetch, e1, e4]
/-- Witness for C4: the ROM `F3 0A` on a fresh machine, three cycles. -/
theorem wait_key_stalls_witness :
    ∃ s', runCycles 3 (loaded [0xF3, 0x0A]) = some s' ∧
      s'.programCounter = (loaded [0xF3, 0x0A]).programCounter ∧
      s'.registers = (loaded [0xF3, 0x0A]).registers ∧
      s'.index = (loaded [0xF3, 0x0A]).index ∧ s'.memory = (loaded [0xF3, 0x0A]).memory ∧
      s'.stack = (loaded [0xF3, 0x0A]).stack ∧
      s'.stackPointer = (loaded [0xF3, 0x0A]).stackPointer ∧
      s'.video = (loaded [0xF3, 0x0A]).video ∧ s'.drawFlag = (loaded [0xF3, 0x0A]).drawFlag ∧
      s'.keypad = (loaded [0xF3, 0x0A]).keypad ∧ fetch s' = fetch (loaded [0xF3, 0x0A]) :=
  wait_key_stalls (loaded [0xF3, 0x0A]) 3 3 (by decide) (by decide) (by decide) (by decide)
    (fun _ _ => rfl)

/-! ## The sprite loops of DXYN -/

/-- A loop whose iterations flip pairwise disjoint sets of cells flips their union. -/
theorem forLoop_toggles
    (body : Nat → (Nat → Nat) × (Nat → Nat) → Option ((Nat → Nat) × (Nat → Nat)))
    (T : Nat → Nat → Prop) :
    ∀ (n i0 : Nat),
      (∀ i, i0 ≤ i → i < i0 + n → Toggles (body i) (T i)) →
      (∀ i j p, i0 ≤ i → i < j → j < i0 + n → T i p → ¬ T j p) →
      Toggles (forLoop body n i0) (fun p => ∃ i, i0 ≤ i ∧ i < i0 + n ∧ T i p) := by
  intro n
  induction n with
  | zero =>
    intro i0 _ _ st
    refine ⟨st, rfl, ?_, fun _ _ => rfl, ?_, fun _ => rfl⟩
    · rintro p ⟨i, h1, h2, -⟩; omega
    · rintro ⟨p, ⟨i, h1, h2, -⟩, -⟩; omega
  | succ n ih =>
    intro i0 hbody hdisj st
    obtain ⟨st1, hs1, hv1, hv1n, hr1, hr1n⟩ := hbody i0 (le_refl _) (by omega) st
    obtain ⟨st2, hs2, hv2, hv2n, hr2, hr2n⟩ :=
      ih (i0 + 1) (fun i h1 h2 => hbody i (by omega) (by omega))
        (fun i j p h1 h2 h3 => hdisj i j p (by omega) h2 (by omega)) st1
    have hsplit : ∀ p, (∃ i, i0 ≤ i ∧ i < i0 + (n + 1) ∧ T i p) ↔
        (T i0 p ∨ ∃ i, i0 + 1 ≤ i ∧ i < i0 + 1 + n ∧ T i p) := by
      intro p
      constructor
      · rintro ⟨i, h1, h2, h3⟩
        by_cases hi : i = i0
        · left; rw [← hi]; exact h3
        · right; exact ⟨i, by omega, by omega, h3⟩
      · rintro (h | ⟨i, h1, h2, h3⟩)
        · exact ⟨i0, le_refl _, by omega, h⟩
        · exact ⟨i, by omega, by omega, h3⟩
    have hexcl : ∀ p, T i0 p → ¬ ∃ i, i0 + 1 ≤ i ∧ i < i0 + 1 + n ∧ T i p := by
      rintro p h0 ⟨i, h1, h2, h3⟩
      exact hdisj i0 i p (le_refl _) (by omega) (by omega) h0 h3
    refine ⟨st2, by simp only [forLoop, hs1, Option.some_bind, hs2], ?_, ?_, ?_, ?_⟩
    · intro p hp
      rcases (hsplit p).1 hp with h0 | hU
      · rw [hv2n p (hexcl p h0), hv1 p h0]
      · have h0 : ¬ T i0 p := fun h0 => hexcl p h0 hU
        rw [hv2 p hU, hv1n p h0]
    · intro p hp
      have h0 : ¬ T i0 p := fun h0 => hp ((hsplit p).2 (Or.inl h0))
      have hU : ¬ ∃ i, i0 + 1 ≤ i ∧ i < i0 + 1 + n ∧ T i p := fun hU => hp ((hsplit p).2 (Or.inr hU))
      rw [hv2n p hU, hv1n p h0]
    · rintro ⟨p, hp, hp1⟩
      have hst1 : write st1.2 0xF 1 = write st.2 0xF 1 := by
        by_cases hc : ∃ p, T i0 p ∧ st.1 p = 1
        · rw [hr1 hc, write_write]
        · rw [hr1n hc]
      by_cases hc2 : ∃ p, (∃ i, i0 + 1 ≤ i ∧ i < i0 + 1 + n ∧ T i p) ∧ st1.1 p = 1
      · rw [hr2 hc2, hst1]
      · rw [hr2n hc2]
        rcases (hsplit p).1 hp with h0 | hU
        · exact hr1 ⟨p, h0, hp1⟩
        · exfalso
          apply hc2
          have h0 : ¬ T i0 p := fun h0 => hexcl p h0 hU
          exact ⟨p, hU, by rw [hv1n p h0]; exact hp1⟩
    · intro hno
      have hc1 : ¬ ∃ p, T i0 p ∧ st.1 p = 1 := by
        rintro ⟨p, h0, hp1⟩
        exact hno ⟨p, (hsplit p).2 (Or.inl h0), hp1⟩
      have hc2 : ¬ ∃ p, (∃ i, i0 + 1 ≤ i ∧ i < i0 + 1 + n ∧ T i p) ∧ st1.1 p = 1 := by
        rintro ⟨p, hU, hp1⟩
        have h0 : ¬ T i0 p := fun h0 => hexcl p h0 hU
        rw [hv1n p h0] at hp1
        exact hno ⟨p, (hsplit p).2 (Or.inr hU), hp1⟩
      rw [hr2n hc2, hr1n hc1]

/-- One step of the inner loop of DXYN flips the cell of column `c` when the sprite bit is
set and the cell is inside the buffer. -/
theorem drawPixel_toggles (x y r pixel c : Nat)
    (hin : pixel &&& (0x80 >>> c) ≠ 0 → x + c + (y + r) * 64 < 2048) :
    Toggles (drawPixel x y r pixel c)
      (fun p => pixel &&& (0x80 >>> c) ≠ 0 ∧ p = x + c + (y + r) * 64) := by
  intro st
  by_cases hb : pixel &&& (0x80 >>> c) ≠ 0
  · have hlt : x + c + (y + r) * 64 < VIDEO_SIZE := hin hb
    refine ⟨_, by unfold drawPixel; rw [if_pos hb, if_pos hlt], ?_, ?_, ?_, ?_⟩
    · rintro p ⟨-, rfl⟩
      exact write_same _ _ _
    · intro p hp
      exact write_other _ _ _ _ (fun h => hp ⟨hb, h⟩)
    · rintro ⟨p, ⟨-, rfl⟩, hp1⟩
      exact if_pos hp1
    · intro hno
      have : st.1 (x + c + (y + r) * 64) ≠ 1 := fun h => hno ⟨_, ⟨hb, rfl⟩, h⟩
      exact if_neg this
  · refine ⟨st, by unfold drawPixel; rw [if_neg hb], ?_, fun _ _ => rfl, ?_, fun _ => rfl⟩
    · rintro p ⟨h, -⟩; exact absurd h hb
    · rintro ⟨p, ⟨h, -⟩, -⟩; exact absurd h hb

/-- One step of the outer loop of DXYN flips the cells of the set bits of sprite row `r`. -/
theorem drawRow_toggles (memory : Nat → Nat) (index x y r : Nat) (hmem : index + r < 4096)
    (hin : ∀ c, c < 8 → memory (index + r) &&& (0x80 >>> c) ≠ 0 → x + c + (y + r) * 64 < 2048) :
    Toggles (drawRow memory index x y r)
      (fun p => ∃ c, c < 8 ∧ memory (index + r) &&& (0x80 >>> c) ≠ 0 ∧
        p = x + c + (y + r) * 64) := by
  have h := forLoop_toggles (drawPixel x y r (memory (index + r)))
    (fun c p => memory (index + r) &&& (0x80 >>> c) ≠ 0 ∧ p = x + c + (y + r) * 64) 8 0
    (fun c _ hc => drawPixel_toggles x y r _ c (hin c (by omega)))
    (fun i j p _ hij _ hi hj => by omega)
  intro st
  obtain ⟨st', hs, h1, h2, h3, h4⟩ := h st
  have hiff : ∀ p, (∃ c, 0 ≤ c ∧ c < 0 + 8 ∧ memory (index + r) &&& (0x80 >>> c) ≠ 0 ∧
      p = x + c + (y + r) * 64) ↔ (∃ c, c < 8 ∧ memory (index + r) &&& (0x80 >>> c) ≠ 0 ∧
        p = x + c + (y + r) * 64) := by
    intro p
    constructor
    · rintro ⟨c, -, h2, h3⟩; exact ⟨c, by omega, h3⟩
    · rintro ⟨c, h2, h3⟩; exact ⟨c, Nat.zero_le _, by omega, h3⟩
  have hmem2 : index + r < MEMORY_SIZE := hmem
  refine ⟨st', by unfold drawRow; rw [if_pos hmem2]; exact hs, ?_, ?_, ?_, ?_⟩
  · intro p hp; exact h1 p ((hiff p).2 hp)
  · intro p hp; exact h2 p (fun h => hp ((hiff p).1 h))
  · rintro ⟨p, hp, hp1⟩; exact h3 ⟨p, (hiff p).2 hp, hp1⟩
  · intro hno; exact h4 (fun ⟨p, hp, hp1⟩ => hno ⟨p, (hiff p).1 hp, hp1⟩)

/-- What `execute` does on DXYN when the sprite rows are read inside memory and every set
sprite pixel falls inside the framebuffer. -/
theorem execute_draw (s : Chip8) (X Y N : Nat) (hX : X < 16) (hY : Y < 16) (hN : N < 16)
    (hmem : ∀ r, r < N → s.index + r < 4096)
    (hvid : ∀ p, spriteCell s (s.registers X) (s.registers Y) N p → p < 2048) :
    ∃ s', s.execute (0xD000 + 256 * X + 16 * Y + N) = some s' ∧
      (∀ p, spriteCell s (s.registers X) (s.registers Y) N p → s'.video p = s.video p ^^^ 1) ∧
      (∀ p, ¬ spriteCell s (s.registers X) (s.registers Y) N p → s'.video p = s.video p) ∧
      ((∃ p, spriteCell s (s.registers X) (s.registers Y) N p ∧ s.video p = 1) →
        s'.registers = write s.registers 0xF 1) ∧
      ((¬ ∃ p, spriteCell s (s.registers X) (s.registers Y) N p ∧ s.video p = 1) →
        s'.registers = write s.registers 0xF 0) ∧
      s'.drawFlag = true ∧ s'.programCounter = (s.programCounter + 2) % 65536 ∧
      s'.memory = s.memory ∧ s'.index = s.index := by
  have h1 : (0xD000 + 256 * X + 16 * Y + N) &&& 0xF000 = 0xD000 := by rw [and_F000]; omega
  have h2 : ((0xD000 + 256 * X + 16 * Y + N) &&& 0x000F) % 256 = N := by rw [and_000F]; omega
  have h3 : ((0xD000 + 256 * X + 16 * Y + N) &&& 0x0F00) >>> 8 = X := by
    rw [and_0F00_shift]; omega
  have h4 : ((0xD000 + 256 * X + 16 * Y + N) &&& 0x00F0) >>> 4 = Y := by
    rw [and_00F0_shift]; omega
  have hloop := forLoop_toggles (drawRow s.memory s.index (s.registers X) (s.registers Y))
    (fun r p => ∃ c, c < 8 ∧ s.memory (s.index + r) &&& (0x80 >>> c) ≠ 0 ∧
      p = s.registers X + c + (s.registers Y + r) * 64) N 0
    (fun r _ hr => drawRow_toggles s.memory s.index _ _ r (hmem r (by omega))
      (fun c hc hb => hvid _ ⟨r, by omega, c, hc, hb, rfl⟩))
    (fun i j p _ hij _ hi => by
      obtain ⟨c, hc, -, hp⟩ := hi
      rintro ⟨c', hc', -, hp'⟩
      omega)
  obtain ⟨⟨v', r'⟩, hs, hv, hvn, hr, hrn⟩ := hloop (s.video, write s.registers 0xF 0)
  have hiff : ∀ p, (∃ r, 0 ≤ r ∧ r < 0 + N ∧ ∃ c, c < 8 ∧
      s.memory (s.index + r) &&& (0x80 >>> c) ≠ 0 ∧
      p = s.registers X + c + (s.registers Y + r) * 64) ↔
      spriteCell s (s.registers X) (s.registers Y) N p := by
    intro p
    constructor
    · rintro ⟨r, -, h, h'⟩; exact ⟨r, by omega, h'⟩
    · rintro ⟨r, h, h'⟩; exact ⟨r, Nat.zero_le _, by omega, h'⟩
  refine ⟨{ s with
      video := v'
      registers := r'
      drawFlag := true
      programCounter := (s.programCounter + 2) % 65536 }, ?_, ?_, ?_, ?_, ?_,
    rfl, rfl, rfl, rfl⟩
  · simp only [Chip8.execute, h1, h2, h3, h4, hs]
  · intro p hp; exact hv p ((hiff p).2 hp)
  · intro p hp; exact hvn p (fun h => hp ((hiff p).1 h))
  · rintro ⟨p, hp, hp1⟩
    show r' = _
    have hr2 : r' = write (write s.registers 0xF 0) 0xF 1 := hr ⟨p, (hiff p).2 hp, hp1⟩
    rw [hr2]
    exact write_write _ _ _ _
  · intro hno
    show r' = _
    exact hrn (fun ⟨p, hp, hp1⟩ => hno ⟨p, (hiff p).1 hp, hp1⟩)

/-! ## C5: drawing a sprite twice -/

/-- Flipping the lowest bit twice gives the value back. -/
theorem xor_one_xor_one (v : Nat) : (v ^^^ 1) ^^^ 1 = v := by
  rw [Nat.xor_assoc, Nat.xor_self, Nat.xor_zero]

/-- C5 (as stated, refuted): `0xDF01` takes its x coordinate from register F, which the first
draw overwrites with the collision flag, so the second draw lands elsewhere and cell 5 stays
on; and a draw that leaves the framebuffer (`0xD011` with V1 = 32) or reads a sprite row past
the end of memory (`0xD002` with index 4095) indexes outside an array. -/
theorem draw_twice_counterexample :
    (¬ ∃ s1 s2, drawFlagOperand.execute 0xDF01 = some s1 ∧ s1.execute 0xDF01 = some s2 ∧
        s2.video = drawFlagOperand.video) ∧
    (¬ ∃ s1, drawBelowScreen.execute 0xD011 = some s1) ∧
    (¬ ∃ s1, drawAtMemoryEnd.execute 0xD002 = some s1) := by
  refine ⟨?_, ?_, ?_⟩
  · rintro ⟨s1, s2, h1, h2, h3⟩
    have h : ((drawFlagOperand.execute 0xDF01).bind (fun t => t.execute 0xDF01)).map
        (fun t => t.video 5) = some 1 := by decide
    have h0 : drawFlagOperand.video 5 = 0 := rfl
    rw [h1, Option.some_bind, h2, Option.map_some', h3, h0] at h
    simp at h
  · rintro ⟨s1, h1⟩
    have h : (drawBelowScreen.execute 0xD011).isSome = false := by decide
    rw [h1] at h
    simp at h
  · rintro ⟨s1, h1⟩
    have h : (drawAtMemoryEnd.execute 0xD002).isSome = false := by decide
    rw [h1] at h
    simp at h

/-- C5 (amended): for a DXYN whose registers X and Y are not register F, whose sprite rows
are read inside memory and whose set pixels all fall inside the 2048-cell framebuffer,
executing the opcode twice in succession succeeds and leaves the framebuffer equal, cell for
cell, to the framebuffer before the first draw. -/
theorem draw_twice_restores (s : Chip8) (X Y N : Nat) (hX : X < 16) (hY : Y < 16)
    (hN : N < 16) (hXF : X ≠ 0xF) (hYF : Y ≠ 0xF)
    (hmem : ∀ r, r < N → s.index + r < 4096)
    (hvid : ∀ p, spriteCell s (s.registers X) (s.registers Y) N p → p < 2048) :
    ∃ s1 s2, s.execute (0xD000 + 256 * X + 16 * Y + N) = some s1 ∧
      s1.execute (0xD000 + 256 * X + 16 * Y + N) = some s2 ∧ s2.video = s.video := by
  obtain ⟨s1, he1, hv1, hvn1, hr1, hrn1, -, -, hm1, hi1⟩ :=
    execute_draw s X Y N hX hY hN hmem hvid
  have hregs : s1.registers X = s.registers X ∧ s1.registers Y = s.registers Y := by
    by_cases hc : ∃ p, spriteCell s (s.registers X) (s.registers Y) N p ∧ s.video p = 1
    · rw [hr1 hc]
      exact ⟨write_other _ _ _ _ hXF, write_other _ _ _ _ hYF⟩
    · rw [hrn1 hc]
      exact ⟨write_other _ _ _ _ hXF, write_other _ _ _ _ hYF⟩
  have hcell : ∀ p, spriteCell s1 (s1.registers X) (s1.registers Y) N p ↔
      spriteCell s (s.registers X) (s.registers Y) N p := by
    intro p
    unfold spriteCell
    rw [hregs.1, hregs.2, hm1, hi1]
  obtain ⟨s2, he2, hv2, hvn2, -⟩ :=
    execute_draw s1 X Y N hX hY hN (by rw [hi1]; exact hmem)
      (fun p hp => hvid p ((hcell p).1 hp))
  refine ⟨s1, s2, he1, he2, ?_⟩
  funext p
  by_cases hp : spriteCell s (s.registers X) (s.registers Y) N p
  · rw [hv2 p ((hcell p).2 hp), hv1 p hp, xor_one_xor_one]
  · rw [hvn2 p (fun h => hp ((hcell p).1 h)), hvn1 p hp]

/-- The five rows of glyph 0 are read inside memory. -/
theorem drawInside_rows : ∀ r, r < 5 → drawInside.index + r < 4096 := by
  intro r hr
  show 0 + r < 4096
  omega

/-- The glyph drawn at (3, 4) lies inside the framebuffer. -/
theorem drawInside_cells :
    ∀ p, spriteCell drawInside (drawInside.registers 0) (drawInside.registers 1) 5 p →
      p < 2048 := by
  rintro p ⟨r, hr, c, hc, -, rfl⟩
  show 3 + c + (4 + r) * 64 < 2048
  omega

/-- Witness for C5: glyph 0 drawn twice at (3, 4) by `0xD015`. -/
theorem draw_twice_restores_witness :
    ∃ s1 s2, drawInside.execute (0xD000 + 256 * 0 + 16 * 1 + 5) = some s1 ∧
      s1.execute (0xD000 + 256 * 0 + 16 * 1 + 5) = some s2 ∧ s2.video = drawInside.video :=
  draw_twice_restores drawInside 0 1 5 (by decide) (by decide) (by decide) (by decide)
    (by decide) drawInside_rows drawInside_cells

/-! ## C6: collision flag of DXYN -/

/-- C6 (as stated, refuted): with an all-off framebuffer and the 8 x 2 sprite placed at (0, 0),
inside the buffer, `0xD002` with the index register at 4095 reads its second sprite row at
`memory[4096]`, outside the array, so `execute` has no result to state the flag of. -/
theorem draw_collision_counterexample :
    drawAtMemoryEnd.video = (fun _ => 0) ∧
    drawAtMemoryEnd.registers 0 + 7 + (drawAtMemoryEnd.registers 0 + 1) * 64 < 2048 ∧
    ¬ ∃ s', drawAtMemoryEnd.execute 0xD002 = some s' ∧
        (s'.registers 0xF = 1 ↔
          ∃ p, p < 2048 ∧ drawAtMemoryEnd.video p ≠ 0 ∧ s'.video p = 0) := by
  refine ⟨rfl, by decide, ?_⟩
  rintro ⟨s', h1, -⟩
  have h : (drawAtMemoryEnd.execute 0xD002).isSome = false := by decide
  rw [h1] at h
  simp at h

/-- C6 (amended): for every state whose framebuffer cells are all 0 or 1 and every DXYN
whose sprite rows are read inside memory and whose set pixels all fall inside the 2048-cell
framebuffer, `execute` succeeds, register F is 1 if and only if some framebuffer cell that
was on before the draw is off after it, register F is 0 otherwise, and the dirty flag is
set. -/
theorem draw_collision_flag (s : Chip8) (X Y N : Nat) (hX : X < 16) (hY : Y < 16)
    (hN : N < 16)
    (hbin : ∀ p, p < 2048 → s.video p = 0 ∨ s.video p = 1)
    (hmem : ∀ r, r < N → s.index + r < 4096)
    (hvid : ∀ p, spriteCell s (s.registers X) (s.registers Y) N p → p < 2048) :
    ∃ s', s.execute (0xD000 + 256 * X + 16 * Y + N) = some s' ∧
      (s'.registers 0xF = 1 ↔ ∃ p, p < 2048 ∧ s.video p ≠ 0 ∧ s'.video p = 0) ∧
      ((¬ ∃ p, p < 2048 ∧ s.video p ≠ 0 ∧ s'.video p = 0) → s'.registers 0xF = 0) ∧
      s'.drawFlag = true := by
  obtain ⟨s', he, hv, hvn, hr, hrn, hd, -⟩ := execute_draw s X Y N hX hY hN hmem hvid
  by_cases hc : ∃ p, spriteCell s (s.registers X) (s.registers Y) N p ∧ s.video p = 1
  · have hoff : ∃ p, p < 2048 ∧ s.video p ≠ 0 ∧ s'.video p = 0 := by
      obtain ⟨p, hp, hp1⟩ := hc
      refine ⟨p, hvid p hp, by rw [hp1]; decide, ?_⟩
      rw [hv p hp, hp1]
      rfl
    have hF : s'.registers 0xF = 1 := by rw [hr hc]; exact write_same _ _ _
    exact ⟨s', he, ⟨fun _ => hoff, fun _ => hF⟩, fun h => absurd hoff h, hd⟩
  · have hoff : ¬ ∃ p, p < 2048 ∧ s.video p ≠ 0 ∧ s'.video p = 0 := by
      rintro ⟨p, hp, hon, hp0⟩
      by_cases hcell : spriteCell s (s.registers X) (s.registers Y) N p
      · rcases hbin p hp with h0 | h1
        · exact hon h0
        · exact hc ⟨p, hcell, h1⟩
      · rw [hvn p hcell] at hp0
        exact hon hp0
    have hF : s'.registers 0xF = 0 := by rw [hrn hc]; exact write_same _ _ _
    refine ⟨s', he, ⟨fun h => ?_, fun h => absurd h hoff⟩, fun _ => hF, hd⟩
    rw [hF] at h
    exact absurd h (by decide)

/-- The framebuffer of `drawOverlap` holds only 0 and 1. -/
theorem drawOverlap_binary : ∀ p, p < 2048 → drawOverlap.video p = 0 ∨ drawOverlap.video p = 1 := by
  intro p _
  show write (fun _ => 0) 259 1 p = 0 ∨ write (fun _ => 0) 259 1 p = 1
  by_cases hp : p = 259
  · right; rw [hp]; exact write_same _ _ _
  · left; exact write_other _ _ _ _ hp

/-- The five rows of glyph 0 are read inside memory. -/
theorem drawOverlap_rows : ∀ r, r < 5 → drawOverlap.index + r < 4096 := by
  intro r hr
  show 0 + r < 4096
  omega

/-- The glyph drawn at (3, 4) lies inside the framebuffer. -/
theorem drawOverlap_cells :
    ∀ p, spriteCell drawOverlap (drawOverlap.registers 0) (drawOverlap.registers 1) 5 p →
      p < 2048 := by
  rintro p ⟨r, hr, c, hc, -, rfl⟩
  show 3 + c + (4 + r) * 64 < 2048
  omega

/-- Witness for C6: glyph 0 drawn at (3, 4) over a cell that is already on. -/
theorem draw_collision_flag_witness :
    ∃ s', drawOverlap.execute (0xD000 + 256 * 0 + 16 * 1 + 5) = some s' ∧
      (s'.registers 0xF = 1 ↔ ∃ p, p < 2048 ∧ drawOverlap.video p ≠ 0 ∧ s'.video p = 0) ∧
      ((¬ ∃ p, p < 2048 ∧ drawOverlap.video p ≠ 0 ∧ s'.video p = 0) → s'.registers 0xF = 0) ∧
      s'.drawFlag = true :=
  draw_collision_flag drawOverlap 0 1 5 (by decide) (by decide) (by decide)
    drawOverlap_binary drawOverlap_rows drawOverlap_cells

/-! ## C7: cells drawn by DXYN -/

/-- C7 (as stated, refuted): from V0 = 62, V1 = 0 the opcode `0xD011` draws the row `0xF0`
of glyph 0; its bit in column 2 is set, the claimed cell is `(0 mod 32) * 64 + (64 mod 64) = 0`,
but the code flips cell 64 (row 1, column 0) and leaves cell 0 as it was. -/
theorem draw_wrap_counterexample :
    drawAtRightEdge.memory (drawAtRightEdge.index + 0) &&& (0x80 >>> 2) ≠ 0 ∧
    ((drawAtRightEdge.registers 1 + 0) % 32) * 64 + ((drawAtRightEdge.registers 0 + 2) % 64) = 0 ∧
    (drawAtRightEdge.execute 0xD011).map (fun t => (t.video 0, t.video 64)) = some (0, 1) ∧
    ¬ ∃ s', drawAtRightEdge.execute 0xD011 = some s' ∧
        s'.video 0 = drawAtRightEdge.video 0 ^^^ 1 := by
  refine ⟨by decide, by decide, by decide, ?_⟩
  rintro ⟨s', h1, h2⟩
  have h : (drawAtRightEdge.execute 0xD011).map (fun t => t.video 0) = some 0 := by decide
  have h0 : drawAtRightEdge.video 0 = 0 := rfl
  rw [h1, Option.map_some', h2, h0] at h
  simp at h

/-- C7 (amended): for a DXYN whose sprite rows are read inside memory and whose set pixels
all fall inside the 2048-cell framebuffer, `execute` succeeds and flips exactly the cells
`x + c + (y + r) * 64` of the set sprite bits (row `r`, column `c`), with no wrapping; this
is the cell `((y + r) mod 32) * 64 + ((x + c) mod 64)` whenever `x + 8 ≤ 64` and
`y + N ≤ 32`. -/
theorem draw_cells (s : Chip8) (X Y N : Nat) (hX : X < 16) (hY : Y < 16) (hN : N < 16)
    (hmem : ∀ r, r < N → s.index + r < 4096)
    (hvid : ∀ p, spriteCell s (s.registers X) (s.registers Y) N p → p < 2048) :
    ∃ s', s.execute (0xD000 + 256 * X + 16 * Y + N) = some s' ∧
      (∀ p, spriteCell s (s.registers X) (s.registers Y) N p → s'.video p = s.video p ^^^ 1) ∧
      (∀ p, ¬ spriteCell s (s.registers X) (s.registers Y) N p → s'.video p = s.video p) ∧
      (s.registers X + 8 ≤ 64 → s.registers Y + N ≤ 32 → ∀ r c, r < N → c < 8 →
        s.registers X + c + (s.registers Y + r) * 64 =
          ((s.registers Y + r) % 32) * 64 + (s.registers X + c) % 64) := by
  obtain ⟨s', he, hv, hvn, -⟩ := execute_draw s X Y N hX hY hN hmem hvid
  refine ⟨s', he, hv, hvn, ?_⟩
  intro hx hy r c hr hc
  rw [Nat.mod_eq_of_lt (by omega : s.registers Y + r < 32),
    Nat.mod_eq_of_lt (by omega : s.registers X + c < 64)]
  omega

/-- Witness for C7: glyph 0 drawn at (3, 4) by `0xD015`. -/
theorem draw_cells_witness :
    ∃ s', drawInside.execute (0xD000 + 256 * 0 + 16 * 1 + 5) = some s' ∧
      (∀ p, spriteCell drawInside (drawInside.registers 0) (drawInside.registers 1) 5 p →
        s'.video p = drawInside.video p ^^^ 1) ∧
      (∀ p, ¬ spriteCell drawInside (drawInside.registers 0) (drawInside.registers 1) 5 p →
        s'.video p = drawInside.video p) ∧
      (drawInside.registers 0 + 8 ≤ 64 → drawInside.registers 1 + 5 ≤ 32 →
        ∀ r c, r < 5 → c < 8 →
          drawInside.registers 0 + c + (drawInside.registers 1 + r) * 64 =
            ((drawInside.registers 1 + r) % 32) * 64 + (drawInside.registers 0 + c) % 64) :=
  draw_cells drawInside 0 1 5 (by decide) (by decide) (by decide)
    drawInside_rows drawInside_cells

/-! ## C8: store-bcd (FX33) -/

/-- C8: for an 8-bit value `v` in register X and an index `I` with `I + 2 ≤ 4095`, `execute`
of FX33 succeeds and leaves in `memory[I]`, `memory[I+1]`, `memory[I+2]` the hundreds, tens
and ones digits of `v` (each below 10, with `100 h + 10 t + o = v`), every other memory byte
and the index register unchanged; for `v = 234` the bytes are 2, 3, 4. -/
theorem store_bcd (s : Chip8) (X v : Nat) (hX : X < 16) (hv : v < 256)
    (hXv : s.registers X = v) (hI : s.index + 2 ≤ 4095) :
    ∃ s', s.execute (0xF033 + 256 * X) = some s' ∧
      s'.memory s.index = v / 100 ∧ s'.memory (s.index + 1) = v / 10 % 10 ∧
      s'.memory (s.index + 2) = v % 10 ∧
      s'.memory s.index < 10 ∧ s'.memory (s.index + 1) < 10 ∧ s'.memory (s.index + 2) < 10 ∧
      100 * s'.memory s.index + 10 * s'.memory (s.index + 1) + s'.memory (s.index + 2) = v ∧
      (∀ a, a ≠ s.index → a ≠ s.index + 1 → a ≠ s.index + 2 → s'.memory a = s.memory a) ∧
      s'.index = s.index ∧
      (v = 234 → s'.memory s.index = 2 ∧ s'.memory (s.index + 1) = 3 ∧
        s'.memory (s.index + 2) = 4) := by
  have h1 : (0xF033 + 256 * X) &&& 0xF000 = 0xF000 := by rw [and_F000]; omega
  have h2 : (0xF033 + 256 * X) &&& 0x00FF = 0x0033 := by rw [and_00FF]; omega
  have h3 : ((0xF033 + 256 * X) &&& 0x0F00) >>> 8 = X := by rw [and_0F00_shift]; omega
  have hb : s.index < MEMORY_SIZE ∧ s.index + 1 < MEMORY_SIZE ∧ s.index + 2 < MEMORY_SIZE := by
    show s.index < 4096 ∧ s.index + 1 < 4096 ∧ s.index + 2 < 4096
    omega
  have m0 : write (write (write s.memory s.index (v / 100 % 256)) (s.index + 1)
      (v / 10 % 10 % 256)) (s.index + 2) (v % 10 % 256) s.index = v / 100 := by
    rw [write_other _ _ _ _ (by omega), write_other _ _ _ _ (by omega), write_same]
    omega
  have m1 : write (write (write s.memory s.index (v / 100 % 256)) (s.index + 1)
      (v / 10 % 10 % 256)) (s.index + 2) (v % 10 % 256) (s.index + 1) = v / 10 % 10 := by
    rw [write_other _ _ _ _ (by omega), write_same]
    omega
  have m2 : write (write (write s.memory s.index (v / 100 % 256)) (s.index + 1)
      (v / 10 % 10 % 256)) (s.index + 2) (v % 10 % 256) (s.index + 2) = v % 10 := by
    rw [write_same]
    omega
  refine ⟨{ s with
      memory := write (write (write s.memory s.index (v / 100 % 256)) (s.index + 1)
        (v / 10 % 10 % 256)) (s.index + 2) (v % 10 % 256)
      programCounter := (s.programCounter + 2) % 65536 }, ?_, m0, m1, m2, ?_, ?_, ?_, ?_, ?_,
    rfl, ?_⟩
  · simp only [Chip8.execute, h1, h2, h3, hXv, if_pos hb]
  · show write _ _ _ _ < 10
    rw [m0]; omega
  · show write _ _ _ _ < 10
    rw [m1]; omega
  · show write _ _ _ _ < 10
    rw [m2]; omega
  · show 100 * write _ _ _ _ + 10 * write _ _ _ _ + write _ _ _ _ = v
    rw [m0, m1, m2]; omega
  · intro a ha0 ha1 ha2
    show write _ _ _ _ = _
    rw [write_other _ _ _ _ ha2, write_other _ _ _ _ ha1, write_other _ _ _ _ ha0]
  · intro hv234
    show write _ _ _ _ = 2 ∧ write _ _ _ _ = 3 ∧ write _ _ _ _ = 4
    rw [m0, m1, m2, hv234]
    exact ⟨rfl, rfl, rfl⟩

/-- Witness for C8: V2 = 234 stored at index 0x300. -/
theorem store_bcd_witness :
    ∃ s', bcdDemo.execute (0xF033 + 256 * 2) = some s' ∧
      s'.memory bcdDemo.index = 234 / 100 ∧ s'.memory (bcdDemo.index + 1) = 234 / 10 % 10 ∧
      s'.memory (bcdDemo.index + 2) = 234 % 10 ∧
      s'.memory bcdDemo.index < 10 ∧ s'.memory (bcdDemo.index + 1) < 10 ∧
      s'.memory (bcdDemo.index + 2) < 10 ∧
      100 * s'.memory bcdDemo.index + 10 * s'.memory (bcdDemo.index + 1) +
        s'.memory (bcdDemo.index + 2) = 234 ∧
      (∀ a, a ≠ bcdDemo.index → a ≠ bcdDemo.index + 1 → a ≠ bcdDemo.index + 2 →
        s'.memory a = bcdDemo.memory a) ∧
      s'.index = bcdDemo.index ∧
      (234 = 234 → s'.memory bcdDemo.index = 2 ∧ s'.memory (bcdDemo.index + 1) = 3 ∧
        s'.memory (bcdDemo.index + 2) = 4) :=
  store_bcd bcdDemo 2 234 (by decide) (by decide) (by decide) (by decide)

/-! ## The cycle as execute followed by the timer tick -/

/-- A cycle whose fetch is inside memory is `execute` followed by the timer tick. -/
theorem emulateCycle_eq (s : Chip8) (h : s.programCounter + 1 < 4096) :
    s.emulateCycle = (Chip8.execute { s with opCode := fetch s } (fetch s)).map timerTick := by
  have h2 : s.programCounter < MEMORY_SIZE ∧ s.programCounter + 1 < MEMORY_SIZE := by
    show s.programCounter < 4096 ∧ s.programCounter + 1 < 4096
    omega
  unfold Chip8.emulateCycle
  rw [if_pos h2]
  show (match Chip8.execute { s with opCode := fetch s } (fetch s) with
    | none => none
    | some s1 => _) = _
  cases Chip8.execute { s with opCode := fetch s } (fetch s) with
  | none => rfl
  | some t =>
    simp only [Option.map_some', timerTick]
    by_cases hd : t.delayTimer > 0
    · by_cases hs : t.soundTimer > 0
      · by_cases h1 : t.soundTimer = 1
        · simp only [if_pos hd, if_pos hs, if_pos h1]
        · simp only [if_pos hd, if_pos hs, if_neg h1]
      · have h1 : t.soundTimer ≠ 1 := by omega
        simp only [if_pos hd, if_neg hs, if_neg h1]
    · by_cases hs : t.soundTimer > 0
      · by_cases h1 : t.soundTimer = 1
        · simp only [if_neg hd, if_pos hs, if_pos h1]
        · simp only [if_neg hd, if_pos hs, if_neg h1]
      · have h1 : t.soundTimer ≠ 1 := by omega
        simp only [if_neg hd, if_neg hs, if_neg h1]

/-! ## C9: end-to-end scenario -/

/-- Unfolds one cycle of `runCycles` when the two bytes at the program counter are `hi` and
`lo` and `execute` succeeds on the opcode they form. -/
theorem runCycles_step (n : Nat) (s t : Chip8) (hi lo : Nat)
    (hpc : s.programCounter + 1 < 4096)
    (hhi : s.memory s.programCounter = hi) (hlo : s.memory (s.programCounter + 1) = lo)
    (hex : Chip8.execute { s with opCode := ((hi <<< 8) ||| lo) % 65536 }
      (((hi <<< 8) ||| lo) % 65536) = some t) :
    runCycles (n + 1) s = runCycles n (timerTick t) := by
  have hf : fetch s = ((hi <<< 8) ||| lo) % 65536 := by rw [fetch, hhi, hlo]
  rw [runCycles, emulateCycle_eq s hpc, hf, hex]
  rfl

/-- C9: whatever the indeterminate initial timers and the random generator, loading the six
ROM bytes `60 0A A2 00 00 E0` into the freshly constructed machine succeeds and three cycles
then succeed and yield register 0 = 10, index register = 0x200, every framebuffer cell off,
the dirty flag set and program counter = 0x206. -/
theorem end_to_end (delay0 sound0 : Nat) (rng : Nat → Nat) :
    ∃ s1 s', (Chip8.new delay0 sound0 rng).loadROM
        (some [0x60, 0x0A, 0xA2, 0x00, 0x00, 0xE0]) = some s1 ∧
      runCycles 3 s1 = some s' ∧
      s'.registers 0 = 10 ∧ s'.index = 0x200 ∧ (∀ i, i < 2048 → s'.video i = 0) ∧
      s'.drawFlag = true ∧ s'.programCounter = 0x206 := by
  refine ⟨_, ?final, rfl, ?h⟩
  case h =>
    refine ⟨Eq.trans (runCycles_step 2 _ ?t1 0x60 0x0A ?p1 ?a1 ?b1 ?e1)
      (Eq.trans (runCycles_step 1 _ ?t2 0xA2 0x00 ?p2 ?a2 ?b2 ?e2)
        (Eq.trans (runCycles_step 0 _ ?t3 0x00 0xE0 ?p3 ?a3 ?b3 ?e3) ?e4)), ?fields⟩
    case p1 => show 0x200 + 1 < 4096; omega
    case a1 => rfl
    case b1 => rfl
    case e1 => exact rfl
    case p2 => show 0x202 + 1 < 4096; omega
    case a2 => rfl
    case b2 => rfl
    case e2 => exact rfl
    case p3 => show 0x204 + 1 < 4096; omega
    case a3 => rfl
    case b3 => rfl
    case e3 => exact rfl
    case e4 => exact rfl
    case fields => exact ⟨rfl, rfl, fun _ _ => rfl, rfl, rfl⟩

/-! ## C10: the beep of the sound timer -/

/-- No case of `execute` writes to `std::cout`. -/
theorem execute_cout (s t : Chip8) (op : Nat) (h : s.execute op = some t) :
    t.cout = s.cout := by
  unfold Chip8.execute at h
  dsimp only at h
  repeat' split at h
  all_goals first
    | (cases h <;> rfl)
    | (simp only [Option.map_eq_some'] at h; obtain ⟨m, -, rfl⟩ := h; rfl)

/-- Only the case FX18 of `execute` assigns the sound timer. -/
theorem execute_soundTimer (s t : Chip8) (op : Nat) (h : s.execute op = some t)
    (hop : op &&& 0xF000 ≠ 0xF000 ∨ op &&& 0x00FF ≠ 0x0018) :
    t.soundTimer = s.soundTimer := by
  unfold Chip8.execute at h
  dsimp only at h
  repeat' split at h
  all_goals first
    | (cases h <;> rfl)
    | (simp only [Option.map_eq_some'] at h; obtain ⟨m, -, rfl⟩ := h; rfl)
    | (exfalso; rcases hop with hop | hop <;> exact hop (by assumption))

/-- A successful cycle fetched inside memory, ran `execute` and then ticked the timers. -/
theorem emulateCycle_some (s s' : Chip8) (h : s.emulateCycle = some s') :
    s.programCounter + 1 < 4096 ∧
    ∃ t, Chip8.execute { s with opCode := fetch s } (fetch s) = some t ∧ s' = timerTick t := by
  by_cases hpc : s.programCounter + 1 < 4096
  · rw [emulateCycle_eq s hpc, Option.map_eq_some'] at h
    obtain ⟨t, ht, hs⟩ := h
    exact ⟨hpc, t, ht, hs.symm⟩
  · exfalso
    unfold Chip8.emulateCycle at h
    rw [if_neg (fun h2 => hpc h2.2)] at h
    cases h

/-- C10: (1) when register X holds 1 and the program counter points at FX18 inside memory,
one cycle succeeds, leaves the sound timer at 0 and writes exactly one `BEEP!`; a further
cycle whose opcode is not FX18 writes none.  (2) In general a cycle whose `execute` returns
the state `t` writes one `BEEP!` if the sound timer of `t` (its value just before the
decrement) is 1, and writes nothing otherwise. -/
theorem beep_edge_triggered :
    (∀ (s : Chip8) (X : Nat), X < 16 → s.programCounter + 1 < 4096 →
      s.memory s.programCounter = 0xF0 + X → s.memory (s.programCounter + 1) = 0x18 →
      s.registers X = 1 →
      ∃ s', s.emulateCycle = some s' ∧ s'.soundTimer = 0 ∧ s'.cout = "BEEP!" :: s.cout ∧
        ∀ s'', s'.emulateCycle = some s'' →
          (fetch s' &&& 0xF000 ≠ 0xF000 ∨ fetch s' &&& 0x00FF ≠ 0x0018) →
          s''.cout = s'.cout) ∧
    (∀ (s t : Chip8), s.programCounter + 1 < 4096 →
      Chip8.execute { s with opCode := fetch s } (fetch s) = some t →
      ∃ s', s.emulateCycle = some s' ∧
        (t.soundTimer = 1 → s'.cout = "BEEP!" :: s.cout) ∧
        (t.soundTimer ≠ 1 → s'.cout = s.cout)) := by
  have general : ∀ (s t : Chip8), s.programCounter + 1 < 4096 →
      Chip8.execute { s with opCode := fetch s } (fetch s) = some t →
      ∃ s', s.emulateCycle = some s' ∧
        (t.soundTimer = 1 → s'.cout = "BEEP!" :: s.cout) ∧
        (t.soundTimer ≠ 1 → s'.cout = s.cout) := by
    intro s t hpc hex
    have hc : t.cout = s.cout := execute_cout { s with opCode := fetch s } t _ hex
    refine ⟨timerTick t, by rw [emulateCycle_eq s hpc, hex]; rfl, ?_, ?_⟩
    · intro h1
      show (if t.soundTimer = 1 then "BEEP!" :: t.cout else t.cout) = _
      rw [if_pos h1, hc]
    · intro h1
      show (if t.soundTimer = 1 then "BEEP!" :: t.cout else t.cout) = _
      rw [if_neg h1, hc]
  refine ⟨?_, general⟩
  intro s X hX hpc hhi hlo hreg
  have hop : fetch s = 0xF018 + 256 * X := by
    rw [fetch, hhi, hlo]
    interval_cases X <;> rfl
  have h1 : (0xF018 + 256 * X) &&& 0xF000 = 0xF000 := by rw [and_F000]; omega
  have h2 : (0xF018 + 256 * X) &&& 0x00FF = 0x0018 := by rw [and_00FF]; omega
  have h3 : ((0xF018 + 256 * X) &&& 0x0F00) >>> 8 = X := by rw [and_0F00_shift]; omega
  have hex : Chip8.execute { s with opCode := fetch s } (fetch s) = some
      { s with
        opCode := 0xF018 + 256 * X
        soundTimer := 1
        programCounter := (s.programCounter + 2) % 65536 } := by
    rw [hop]
    simp only [Chip8.execute, h1, h2, h3, hreg]
  obtain ⟨s', hs', hb, -⟩ := general s _ hpc hex
  have hs'2 := hs'
  rw [emulateCycle_eq s hpc, hex] at hs'2
  have hst : s'.soundTimer = 0 := by
    cases hs'2
    rfl
  refine ⟨s', hs', hst, hb rfl, ?_⟩
  intro s'' hs'' hnot
  obtain ⟨hpc', t', hex', rfl⟩ := emulateCycle_some s' s'' hs''
  have hsnd : t'.soundTimer = 0 := by
    have := execute_soundTimer { s' with opCode := fetch s' } t' _ hex' hnot
    rw [this]
    exact hst
  have hc : t'.cout = s'.cout := execute_cout { s' with opCode := fetch s' } t' _ hex'
  show (if t'.soundTimer = 1 then "BEEP!" :: t'.cout else t'.cout) = _
  rw [if_neg (by omega), hc]

/-- Witness for C10: the program `F3 18` with V3 = 1. -/
theorem beep_edge_triggered_witness :
    (∃ s', beepDemo.emulateCycle = some s' ∧ s'.soundTimer = 0 ∧
        s'.cout = "BEEP!" :: beepDemo.cout ∧
        ∀ s'', s'.emulateCycle = some s'' →
          (fetch s' &&& 0xF000 ≠ 0xF000 ∨ fetch s' &&& 0x00FF ≠ 0x0018) →
          s''.cout = s'.cout) ∧
    (∃ s', beepDemo.emulateCycle = some s' ∧
        (({ beepDemo with opCode := 0xF318, soundTimer := 1, programCounter := 0x202 } :
            Chip8).soundTimer = 1 → s'.cout = "BEEP!" :: beepDemo.cout) ∧
        (({ beepDemo with opCode := 0xF318, soundTimer := 1, programCounter := 0x202 } :
            Chip8).soundTimer ≠ 1 → s'.cout = beepDemo.cout)) :=
  ⟨beep_edge_triggered.1 beepDemo 3 (by decide) (by decide) (by decide) (by decide)
      (by decide),
    beep_edge_triggered.2 beepDemo
      { beepDemo with opCode := 0xF318, soundTimer := 1, programCounter := 0x202 }
      (by decide) rfl⟩

/-! ## Loops that copy a range -/

/-- A copy loop whose step `i` writes `v i` at `off + i` when the check `c i` passes: if every
check of the range passes, the loop succeeds and has written exactly that range. -/
theorem forLoop_copy_some (body : Nat → (Nat → Nat) → Option (Nat → Nat)) (c : Nat → Prop)
    (off : Nat) (v : Nat → Nat)
    (hbody : ∀ i m, c i → body i m = some (write m (off + i) (v i))) :
    ∀ (n i0 : Nat) (m : Nat → Nat), (∀ i, i0 ≤ i → i < i0 + n → c i) →
      ∃ m', forLoop body n i0 m = some m' ∧
        (∀ i, i0 ≤ i → i < i0 + n → m' (off + i) = v i) ∧
        (∀ a, (a < off + i0 ∨ off + i0 + n ≤ a) → m' a = m a) := by
  intro n
  induction n with
  | zero =>
    intro i0 m _
    exact ⟨m, rfl, fun i h1 h2 => by omega, fun _ _ => rfl⟩
  | succ n ih =>
    intro i0 m hc
    obtain ⟨m', hm', hin, hout⟩ := ih (i0 + 1) (write m (off + i0) (v i0))
      (fun i h1 h2 => hc i (by omega) (by omega))
    refine ⟨m', ?_, ?_, ?_⟩
    · rw [forLoop, hbody i0 m (hc i0 (le_refl _) (by omega)), Option.some_bind, hm']
    · intro i h1 h2
      by_cases hi : i = i0
      · rw [hi, hout (off + i0) (Or.inl (by omega)), write_same]
      · exact hin i (by omega) (by omega)
    · intro a ha
      rw [hout a (by omega), write_other _ _ _ _ (by omega)]

/-- A loop fails as soon as one step of its range fails on every state. -/
theorem forLoop_none {σ : Type} (body : Nat → σ → Option σ) (c : Nat → Prop)
    (hnone : ∀ i st, ¬ c i → body i st = none) :
    ∀ (n i0 : Nat) (st : σ), (∃ i, i0 ≤ i ∧ i < i0 + n ∧ ¬ c i) →
      forLoop body n i0 st = none := by
  intro n
  induction n with
  | zero =>
    rintro i0 st ⟨i, h1, h2, -⟩
    omega
  | succ n ih =>
    rintro i0 st ⟨i, h1, h2, h3⟩
    rw [forLoop]
    cases hb : body i0 st with
    | none => rfl
    | some st1 =>
      rw [Option.some_bind]
      apply ih
      refine ⟨i, ?_, by omega, h3⟩
      by_contra hlt
      have hi : i = i0 := by omega
      rw [hi] at h3
      rw [hnone i0 st h3] at hb
      cases hb

/-! ## C11: the timer tick -/

/-- An opcode that reaches a `default:` branch is reported on `std::cerr` and changes no
member. -/
theorem execute_default (s : Chip8) (op : Nat) (h : reachesDefault op) :
    s.execute op = some { s with cerr := op :: s.cerr } := by
  unfold reachesDefault at h
  simp only [List.mem_cons, List.mem_singleton, List.not_mem_nil, or_false, not_or] at h
  rcases h with ⟨h1, h2⟩ | ⟨h1, h2⟩ | ⟨h1, h2⟩ | ⟨h1, h2⟩
  · simp only [Chip8.execute, h1]
    split
    · exact absurd (by assumption) h2.1
    · exact absurd (by assumption) h2.2
    · rfl
  · simp only [Chip8.execute, h1]
    obtain ⟨a0, a1, a2, a3, a4, a5, a6, a7, a8⟩ := h2
    split <;> first | rfl | (exfalso; contradiction)
  · simp only [Chip8.execute, h1]
    split <;> first
      | rfl
      | (exfalso; exact h2.1 (by assumption))
      | (exfalso; exact h2.2 (by assumption))
  · simp only [Chip8.execute, h1]
    obtain ⟨a0, a1, a2, a3, a4, a5, a6, a7, a8⟩ := h2
    split <;> first | rfl | (exfalso; contradiction)

/-- The register index `X` decoded from an opcode is below 16. -/
theorem opX_lt (op : Nat) : (op &&& 0x0F00) >>> 8 < 16 := by
  rw [and_0F00_shift]
  omega

/-- From a state whose timers and registers are 8-bit, `execute` returns 8-bit timers. -/
theorem execute_timers_lt (s t : Chip8) (op : Nat) (h : s.execute op = some t)
    (hd : s.delayTimer < 256) (hs : s.soundTimer < 256)
    (hr : ∀ i, i < 16 → s.registers i < 256) :
    t.delayTimer < 256 ∧ t.soundTimer < 256 := by
  unfold Chip8.execute at h
  dsimp only at h
  repeat' split at h
  all_goals first
    | (cases h <;> exact ⟨hd, hs⟩)
    | (cases h <;> exact ⟨hr _ (opX_lt op), hs⟩)
    | (cases h <;> exact ⟨hd, hr _ (opX_lt op)⟩)
    | (simp only [Option.map_eq_some'] at h; obtain ⟨m, -, rfl⟩ := h; exact ⟨hd, hs⟩)

/-- The tick of an 8-bit timer: one less when positive, still zero at zero. -/
theorem timerTick_timers (t : Chip8) (hd : t.delayTimer < 256) (hs : t.soundTimer < 256) :
    (0 < t.delayTimer → (timerTick t).delayTimer + 1 = t.delayTimer) ∧
    (t.delayTimer = 0 → (timerTick t).delayTimer = 0) ∧
    (0 < t.soundTimer → (timerTick t).soundTimer + 1 = t.soundTimer) ∧
    (t.soundTimer = 0 → (timerTick t).soundTimer = 0) := by
  refine ⟨?_, ?_, ?_, ?_⟩
  · intro h
    show (if t.delayTimer > 0 then toU8 ((t.delayTimer : Int) - 1) else t.delayTimer) + 1 = _
    rw [if_pos h]
    unfold toU8
    omega
  · intro h
    show (if t.delayTimer > 0 then toU8 ((t.delayTimer : Int) - 1) else t.delayTimer) = _
    rw [if_neg (by omega)]
    exact h
  · intro h
    show (if t.soundTimer > 0 then toU8 ((t.soundTimer : Int) - 1) else t.soundTimer) + 1 = _
    rw [if_pos h]
    unfold toU8
    omega
  · intro h
    show (if t.soundTimer > 0 then toU8 ((t.soundTimer : Int) - 1) else t.soundTimer) = _
    rw [if_neg (by omega)]
    exact h

/-- C11: in a cycle on a state with 8-bit timers and registers, fetched inside memory:
(1) whatever the opcode, if `execute` returns the state `t`, the cycle succeeds and each of
the two timers ends one below its value in `t` when that value is positive and at 0 when it
is 0 (no wrap to 255); (2) a wait-for-key stalled on an all-up keypad keeps the program
counter and ticks both timers in the same way; (3) so does an opcode that reaches a
`default:` branch. -/
theorem timer_tick :
    (∀ (s t : Chip8), s.programCounter + 1 < 4096 →
      s.delayTimer < 256 → s.soundTimer < 256 → (∀ i, i < 16 → s.registers i < 256) →
      Chip8.execute { s with opCode := fetch s } (fetch s) = some t →
      ∃ s', s.emulateCycle = some s' ∧
        (0 < t.delayTimer → s'.delayTimer + 1 = t.delayTimer) ∧
        (t.delayTimer = 0 → s'.delayTimer = 0) ∧
        (0 < t.soundTimer → s'.soundTimer + 1 = t.soundTimer) ∧
        (t.soundTimer = 0 → s'.soundTimer = 0)) ∧
    (∀ (s : Chip8) (X : Nat), X < 16 → s.programCounter + 1 < 4096 →
      s.delayTimer < 256 → s.soundTimer < 256 →
      s.memory s.programCounter = 0xF0 + X → s.memory (s.programCounter + 1) = 0x0A →
      (∀ j, j < 16 → s.keypad j = 0) →
      ∃ s', s.emulateCycle = some s' ∧ s'.programCounter = s.programCounter ∧
        (0 < s.delayTimer → s'.delayTimer + 1 = s.delayTimer) ∧
        (s.delayTimer = 0 → s'.delayTimer = 0) ∧
        (0 < s.soundTimer → s'.soundTimer + 1 = s.soundTimer) ∧
        (s.soundTimer = 0 → s'.soundTimer = 0)) ∧
    (∀ (s : Chip8), s.programCounter + 1 < 4096 →
      s.delayTimer < 256 → s.soundTimer < 256 → reachesDefault (fetch s) →
      ∃ s', s.emulateCycle = some s' ∧ s'.programCounter = s.programCounter ∧
        (0 < s.delayTimer → s'.delayTimer + 1 = s.delayTimer) ∧
        (s.delayTimer = 0 → s'.delayTimer = 0) ∧
        (0 < s.soundTimer → s'.soundTimer + 1 = s.soundTimer) ∧
        (s.soundTimer = 0 → s'.soundTimer = 0)) := by
  refine ⟨?_, ?_, ?_⟩
  · intro s t hpc hd hs hr hex
    obtain ⟨hd', hs'⟩ := execute_timers_lt { s with opCode := fetch s } t _ hex hd hs hr
    exact ⟨timerTick t, by rw [emulateCycle_eq s hpc, hex]; rfl, timerTick_timers t hd' hs'⟩
  · intro s X hX hpc hd hs hhi hlo hkeys
    have hop : fetch s = 0xF00A + 256 * X := by
      rw [fetch, hhi, hlo]
      interval_cases X <;> rfl
    have h1 : (0xF00A + 256 * X) &&& 0xF000 = 0xF000 := by rw [and_F000]; omega
    have h2 : (0xF00A + 256 * X) &&& 0x00FF = 0x000A := by rw [and_00FF]; omega
    have h3 : ((0xF00A + 256 * X) &&& 0x0F00) >>> 8 = X := by rw [and_0F00_shift]; omega
    have hloop := scanKey_none s.keypad X 16 0 (s.registers, false)
      (fun j _ hj2 => hkeys j (by omega))
    have hex : Chip8.execute { s with opCode := fetch s } (fetch s)
        = some { s with opCode := 0xF00A + 256 * X } := by
      rw [hop]
      simp only [Chip8.execute, h1, h2, h3, hloop]
      rfl
    exact ⟨timerTick { s with opCode := 0xF00A + 256 * X },
      by rw [emulateCycle_eq s hpc, hex]; rfl, rfl,
      timerTick_timers { s with opCode := 0xF00A + 256 * X } hd hs⟩
  · intro s hpc hd hs hdef
    have hex := execute_default { s with opCode := fetch s } (fetch s) hdef
    exact ⟨timerTick { s with opCode := fetch s, cerr := fetch s :: s.cerr },
      by rw [emulateCycle_eq s hpc, hex]; rfl, rfl,
      timerTick_timers { s with opCode := fetch s, cerr := fetch s :: s.cerr } hd hs⟩

/-- Witness for C11: the FX18 program of `beepDemo`, a stalled `F3 0A` with delay timer 5,
and the unknown opcode `0x8128` with sound timer 255. -/
theorem timer_tick_witness :
    (∃ s', beepDemo.emulateCycle = some s' ∧
        (0 < ({ beepDemo with opCode := 0xF318, soundTimer := 1, programCounter := 0x202 } :
            Chip8).delayTimer → s'.delayTimer + 1 =
          ({ beepDemo with opCode := 0xF318, soundTimer := 1, programCounter := 0x202 } :
            Chip8).delayTimer) ∧
        (({ beepDemo with opCode := 0xF318, soundTimer := 1, programCounter := 0x202 } :
            Chip8).delayTimer = 0 → s'.delayTimer = 0) ∧
        (0 < ({ beepDemo with opCode := 0xF318, soundTimer := 1, programCounter := 0x202 } :
            Chip8).soundTimer → s'.soundTimer + 1 =
          ({ beepDemo with opCode := 0xF318, soundTimer := 1, programCounter := 0x202 } :
            Chip8).soundTimer) ∧
        (({ beepDemo with opCode := 0xF318, soundTimer := 1, programCounter := 0x202 } :
            Chip8).soundTimer = 0 → s'.soundTimer = 0)) ∧
    (∃ s', (withTimers (loaded [0xF3, 0x0A]) 5 0).emulateCycle = some s' ∧
        s'.programCounter = (withTimers (loaded [0xF3, 0x0A]) 5 0).programCounter ∧
        (0 < (withTimers (loaded [0xF3, 0x0A]) 5 0).delayTimer →
          s'.delayTimer + 1 = (withTimers (loaded [0xF3, 0x0A]) 5 0).delayTimer) ∧
        ((withTimers (loaded [0xF3, 0x0A]) 5 0).delayTimer = 0 → s'.delayTimer = 0) ∧
        (0 < (withTimers (loaded [0xF3, 0x0A]) 5 0).soundTimer →
          s'.soundTimer + 1 = (withTimers (loaded [0xF3, 0x0A]) 5 0).soundTimer) ∧
        ((withTimers (loaded [0xF3, 0x0A]) 5 0).soundTimer = 0 → s'.soundTimer = 0)) ∧
    (∃ s', (withTimers (loaded [0x81, 0x28]) 0 255).emulateCycle = some s' ∧
        s'.programCounter = (withTimers (loaded [0x81, 0x28]) 0 255).programCounter ∧
        (0 < (withTimers (loaded [0x81, 0x28]) 0 255).delayTimer →
          s'.delayTimer + 1 = (withTimers (loaded [0x81, 0x28]) 0 255).delayTimer) ∧
        ((withTimers (loaded [0x81, 0x28]) 0 255).delayTimer = 0 → s'.delayTimer = 0) ∧
        (0 < (withTimers (loaded [0x81, 0x28]) 0 255).soundTimer →
          s'.soundTimer + 1 = (withTimers (loaded [0x81, 0x28]) 0 255).soundTimer) ∧
        ((withTimers (loaded [0x81, 0x28]) 0 255).soundTimer = 0 → s'.soundTimer = 0)) :=
  ⟨timer_tick.1 beepDemo
      { beepDemo with opCode := 0xF318, soundTimer := 1, programCounter := 0x202 }
      (by decide) (by decide) (by decide) (by decide) rfl,
    timer_tick.2.1 (withTimers (loaded [0xF3, 0x0A]) 5 0) 3 (by decide) (by decide)
      (by decide) (by decide) (by decide) (by decide) (fun _ _ => rfl),
    timer_tick.2.2 (withTimers (loaded [0x81, 0x28]) 0 255) (by decide) (by decide)
      (by decide) (by decide)⟩

/-! ## C12: the loader copies the ROM -/

/-- The copy step of `loadROM` succeeds inside memory. -/
theorem loadByte_some (bytes : List Nat) (i : Nat) (m : Nat → Nat) (h : 0x200 + i < 4096) :
    loadByte bytes i m = some (write m (0x200 + i) (bytes.getD i 0 % 256)) := by
  have h2 : MEM_START + i < MEMORY_SIZE := h
  unfold loadByte
  rw [if_pos h2]

/-- The copy step of `loadROM` indexes outside memory from byte 3584 on. -/
theorem loadByte_none (bytes : List Nat) (i : Nat) (m : Nat → Nat) (h : ¬ 0x200 + i < 4096) :
    loadByte bytes i m = none := by
  have h2 : ¬ MEM_START + i < MEMORY_SIZE := h
  unfold loadByte
  rw [if_neg h2]

/-- C12: for a sequence of bytes (values below 256) of length at most `4096 - 0x200`,
`loadROM` succeeds, `memory[0x200 + i]` is byte `i` for every `i` below the length, every
memory byte below 0x200 or from `0x200 + length` on is unchanged (so is the font at
0x000..0x04F), and no other member changes. -/
theorem loadROM_copies (s : Chip8) (bytes : List Nat) (hlen : bytes.length ≤ 4096 - 0x200)
    (hbytes : ∀ i, i < bytes.length → bytes.getD i 0 < 256) :
    ∃ s', s.loadROM (some bytes) = some s' ∧
      (∀ i, i < bytes.length → s'.memory (0x200 + i) = bytes.getD i 0) ∧
      (∀ a, (a < 0x200 ∨ 0x200 + bytes.length ≤ a) → s'.memory a = s.memory a) ∧
      (∀ a, a < 0x50 → s'.memory a = s.memory a) ∧
      s' = { s with memory := s'.memory } := by
  obtain ⟨m, hm, hin, hout⟩ := forLoop_copy_some (loadByte bytes) (fun i => 0x200 + i < 4096)
    0x200 (fun i => bytes.getD i 0 % 256) (fun i m h => loadByte_some bytes i m h)
    bytes.length 0 s.memory (fun i _ hi => by show 0x200 + i < 4096; omega)
  refine ⟨{ s with memory := m }, ?_, ?_, ?_, ?_, rfl⟩
  · unfold Chip8.loadROM
    simp only [hm, Option.map_some']
  · intro i hi
    show m (0x200 + i) = _
    rw [hin i (Nat.zero_le _) (by omega)]
    exact Nat.mod_eq_of_lt (hbytes i hi)
  · intro a ha
    exact hout a (by omega)
  · intro a ha
    exact hout a (by omega)

/-- Witness for C12: the three bytes `60 0A A2` loaded into the constructed machine. -/
theorem loadROM_copies_witness :
    ∃ s', (Chip8.new 0 0 (fun _ => 0)).loadROM (some [0x60, 0x0A, 0xA2]) = some s' ∧
      (∀ i, i < [0x60, 0x0A, 0xA2].length →
        s'.memory (0x200 + i) = [0x60, 0x0A, 0xA2].getD i 0) ∧
      (∀ a, (a < 0x200 ∨ 0x200 + [0x60, 0x0A, 0xA2].length ≤ a) →
        s'.memory a = (Chip8.new 0 0 (fun _ => 0)).memory a) ∧
      (∀ a, a < 0x50 → s'.memory a = (Chip8.new 0 0 (fun _ => 0)).memory a) ∧
      s' = { Chip8.new 0 0 (fun _ => 0) with memory := s'.memory } :=
  loadROM_copies (Chip8.new 0 0 (fun _ => 0)) [0x60, 0x0A, 0xA2] (by decide) (by decide)

/-! ## C13: the loader and an oversize ROM -/

/-- A ROM longer than `4096 - 0x200` bytes makes `loadROM` index outside memory. -/
theorem loadROM_none_of_oversize (s : Chip8) (bytes : List Nat)
    (hlen : bytes.length > 4096 - 0x200) : s.loadROM (some bytes) = none := by
  have h := forLoop_none (loadByte bytes) (fun i => 0x200 + i < 4096)
    (loadByte_none bytes) bytes.length 0 s.memory
    ⟨4096 - 0x200, Nat.zero_le _, by omega, by omega⟩
  unfold Chip8.loadROM
  simp only [h, Option.map_none']

/-- The members after `Chip8::Chip8`: all as assigned by the constructor, and the two timers,
which it does not assign, at whatever values `delay0` and `sound0` the storage held. -/
theorem constructor_fields (delay0 sound0 : Nat) (rng : Nat → Nat) :
    (Chip8.new delay0 sound0 rng).programCounter = 0x200 ∧
    (Chip8.new delay0 sound0 rng).stackPointer = 0 ∧
    (Chip8.new delay0 sound0 rng).index = 0 ∧
    (∀ i, (Chip8.new delay0 sound0 rng).registers i = 0) ∧
    (∀ i, (Chip8.new delay0 sound0 rng).stack i = 0) ∧
    (∀ i, (Chip8.new delay0 sound0 rng).keypad i = 0) ∧
    (∀ i, (Chip8.new delay0 sound0 rng).video i = 0) ∧
    (∀ i, i < 80 → (Chip8.new delay0 sound0 rng).memory i = fontset.getD i 0) ∧
    (∀ i, 80 ≤ i → (Chip8.new delay0 sound0 rng).memory i = 0) ∧
    (Chip8.new delay0 sound0 rng).drawFlag = false ∧
    (Chip8.new delay0 sound0 rng).delayTimer = delay0 ∧
    (Chip8.new delay0 sound0 rng).soundTimer = sound0 := by
  refine ⟨rfl, rfl, rfl, fun _ => rfl, fun _ => rfl, fun _ => rfl, fun _ => rfl, ?_, ?_,
    rfl, rfl, rfl⟩
  · intro i hi
    show (if FONTSET_START ≤ i ∧ i < FONTSET_START + FONTSET_SIZE then
      fontset.getD (i - FONTSET_START) 0 else 0) = _
    rw [if_pos ⟨Nat.zero_le _, by show i < 0 + 80; omega⟩]
    rfl
  · intro i hi
    show (if FONTSET_START ≤ i ∧ i < FONTSET_START + FONTSET_SIZE then
      fontset.getD (i - FONTSET_START) 0 else 0) = _
    rw [if_neg (fun h => by have := h.2; change i < 0 + 80 at this; omega)]

/-- C14 (code at the failing input): built over storage that held 7 and 9 where the two
timers live, the constructed machine has delay timer 7 and sound timer 9, not 0; every other
member is as claimed (program counter 0x200, stack pointer 0, index 0, registers, stack,
keypad and framebuffer all 0, the font in `memory[0..79]`, 0 in `memory[80..]`). -/
theorem constructor_timers_unassigned :
    (Chip8.new 7 9 (fun _ => 0)).programCounter = 0x200 ∧
    (Chip8.new 7 9 (fun _ => 0)).stackPointer = 0 ∧
    (Chip8.new 7 9 (fun _ => 0)).index = 0 ∧
    (∀ i, (Chip8.new 7 9 (fun _ => 0)).registers i = 0) ∧
    (∀ i, (Chip8.new 7 9 (fun _ => 0)).stack i = 0) ∧
    (∀ i, (Chip8.new 7 9 (fun _ => 0)).keypad i = 0) ∧
    (∀ i, (Chip8.new 7 9 (fun _ => 0)).video i = 0) ∧
    (∀ i, i < 80 → (Chip8.new 7 9 (fun _ => 0)).memory i = fontset.getD i 0) ∧
    (∀ i, 80 ≤ i → (Chip8.new 7 9 (fun _ => 0)).memory i = 0) ∧
    (Chip8.new 7 9 (fun _ => 0)).drawFlag = false ∧
    (Chip8.new 7 9 (fun _ => 0)).delayTimer = 7 ∧
    (Chip8.new 7 9 (fun _ => 0)).soundTimer = 9 :=
  constructor_fields 7 9 (fun _ => 0)

/-! ## C15: words outside the 35 instruction patterns -/

/-- C15 (code at the failing input): family 0 is decoded on the low nibble only, so the word
`0x0000`, which is not 00E0, runs clear-screen (cell 259 goes off, the dirty flag is set, the
program counter advances), and the word `0x001E`, which is not 00EE, runs return (the stack
pointer drops from 1 to 0 and the program counter becomes 0x302). -/
theorem unknown_word_executes :
    drawOverlap.video 259 = 1 ∧ drawOverlap.drawFlag = false ∧
    drawOverlap.programCounter = 0x200 ∧
    (drawOverlap.execute 0x0000).map (fun t => (t.video 259, t.drawFlag, t.programCounter))
      = some (0, true, 0x202) ∧
    returnDemo.stackPointer = 1 ∧
    (returnDemo.execute 0x001E).map (fun t => (t.stackPointer, t.programCounter))
      = some (0, 0x302) := by
  decide

/-! ## C16: the stack pointer -/

/-- No case of `execute` takes the stack pointer from 0..16 to a value above 16. -/
theorem execute_stackPointer_le (s t : Chip8) (op : Nat) (h : s.execute op = some t)
    (hsp : s.stackPointer ≤ 16) : t.stackPointer ≤ 16 := by
  unfold Chip8.execute at h
  dsimp only at h
  repeat' split at h
  all_goals first
    | (cases h <;> exact hsp)
    | (cases h <;> (show _ % 256 ≤ 16) <;> omega)
    | (cases h <;> (show toU8 _ ≤ 16) <;> omega)
    | (simp only [Option.map_eq_some'] at h; obtain ⟨m, -, rfl⟩ := h; exact hsp)

/-- The method `loadROM` leaves the stack pointer alone. -/
theorem loadROM_stackPointer (s s' : Chip8) (file : Option (List Nat))
    (h : s.loadROM file = some s') : s'.stackPointer = s.stackPointer := by
  unfold Chip8.loadROM at h
  split at h
  · cases h; rfl
  · simp only [Option.map_eq_some'] at h
    obtain ⟨m, -, rfl⟩ := h
    rfl

/-- The stack pointer of a reachable state is at most 16. -/
theorem reachable_stackPointer_le (s : Chip8) (h : Reachable s) : s.stackPointer ≤ 16 := by
  induction h with
  | construct d snd rng => exact Nat.zero_le _
  | load s s' file _ hl ih => rw [loadROM_stackPointer s s' file hl]; exact ih
  | keys s ks _ ih => exact ih
  | cycle s s' _ hc ih =>
    obtain ⟨-, t, hex, rfl⟩ := emulateCycle_some s s' hc
    exact execute_stackPointer_le { s with opCode := fetch s } t _ hex ih

/-- C16 (as stated, refuted): the ROM `22 00` calls itself; after 16 cycles the stack pointer
is 16 and the next opcode is again `0x2200`, and the 17th cycle writes `stack[16]`, outside
the array.  The ROM `00 EE` returns on the empty stack: its first cycle reads `stack[255]`. -/
theorem stack_overflow_counterexample :
    (runCycles 16 (loaded [0x22, 0x00])).map (fun t => (t.stackPointer, fetch t))
      = some (16, 0x2200) ∧
    (runCycles 17 (loaded [0x22, 0x00])).isSome = false ∧
    (loaded [0x00, 0xEE]).stackPointer = 0 ∧ fetch (loaded [0x00, 0xEE]) = 0x00EE ∧
    (runCycles 1 (loaded [0x00, 0xEE])).isSome = false := by
  refine ⟨by decide, by decide, by decide, by decide, by decide⟩

/-- C16 (amended): (1) in every state reachable from the constructed machine by `loadROM`,
`setKeys` and cycles that do not index outside an array, the stack pointer is within 0..16;
(2) a call 2NNN accesses the stack slot `sp` and stays inside the 16-slot stack exactly when
`sp < 16`; (3) with `sp` in 0..16, a return 00EE accesses the slot `sp - 1` and stays inside
the stack exactly when `sp ≥ 1`.  A call at depth 16 and a return on the empty stack are
not checked and index outside the stack. -/
theorem stack_bound :
    (∀ s, Reachable s → s.stackPointer ≤ 16) ∧
    (∀ (s : Chip8) (NNN : Nat), NNN < 4096 →
      ((s.execute (0x2000 + NNN)).isSome = true ↔ s.stackPointer < 16)) ∧
    (∀ (s : Chip8), s.stackPointer ≤ 16 →
      ((s.execute 0x00EE).isSome = true ↔ 1 ≤ s.stackPointer)) := by
  refine ⟨reachable_stackPointer_le, ?_, ?_⟩
  · intro s NNN hN
    have h1 : (0x2000 + NNN) &&& 0xF000 = 0x2000 := by rw [and_F000]; omega
    simp only [Chip8.execute, h1]
    by_cases hsp : s.stackPointer < 16
    · simp only [hsp, if_true, Option.isSome_some]
    · simp only [hsp, if_false, Option.isSome_none]
      exact ⟨fun h => absurd h (by decide), fun h => absurd h (by simp)⟩
  · intro s hsp
    have h1 : (0x00EE : Nat) &&& 0xF000 = 0x0000 := by decide
    have h2 : (0x00EE : Nat) &&& 0x000F = 0x000E := by decide
    simp only [Chip8.execute, h1, h2]
    by_cases h0 : 1 ≤ s.stackPointer
    · have : toU8 ((s.stackPointer : Int) - 1) < 16 := by unfold toU8; omega
      simp only [this, if_true, Option.isSome_some, h0]
    · have : ¬ toU8 ((s.stackPointer : Int) - 1) < 16 := by unfold toU8; omega
      simp only [this, if_false, Option.isSome_none, h0]
      exact ⟨fun h => absurd h (by decide), fun h => absurd h (by simp)⟩

/-- Witness for C16: the machine after loading `22 00`, a call to 0x300, a return at depth 16. -/
theorem stack_bound_witness :
    (loaded [0x22, 0x00]).stackPointer ≤ 16 ∧
    (((loaded [0x22, 0x00]).execute (0x2000 + 0x300)).isSome = true ↔
      (loaded [0x22, 0x00]).stackPointer < 16) ∧
    ((stackFull.execute 0x00EE).isSome = true ↔ 1 ≤ stackFull.stackPointer) :=
  ⟨stack_bound.1 (loaded [0x22, 0x00])
      (Reachable.load (Chip8.new 0 0 (fun _ => 0)) _ (some [0x22, 0x00])
        (Reachable.construct 0 0 (fun _ => 0)) rfl),
    stack_bound.2.1 (loaded [0x22, 0x00]) 0x300 (by decide),
    stack_bound.2.2 stackFull (by decide)⟩

/-! ## C17: memory addresses -/

/-- The step of FX55 succeeds inside memory. -/
theorem storeReg_some (registers : Nat → Nat) (index i : Nat) (m : Nat → Nat)
    (h : index + i < 4096) :
    storeReg registers index i m = some (write m (index + i) (registers i)) := by
  have h2 : index + i < MEMORY_SIZE := h
  unfold storeReg
  rw [if_pos h2]

/-- The step of FX65 succeeds inside memory. -/
theorem loadReg_some (memory : Nat → Nat) (index i : Nat) (r : Nat → Nat)
    (h : index + i < 4096) :
    loadReg memory index i r = some (write r (0 + i) (memory (index + i))) := by
  have h2 : index + i < MEMORY_SIZE := h
  unfold loadReg
  rw [if_pos h2, Nat.zero_add]

/-- C18: for a state with stack pointer `sp < 16` and program counter `p`, and an address
`NNN`, `execute` of 2NNN succeeds, stores `p` in stack slot `sp`, sets the stack pointer to
`sp + 1` and the program counter to `NNN`, and changes no other stack slot; a return 00EE
executed at that depth (stack pointer `sp + 1`, slot `sp` still holding `p`) succeeds and
sets the stack pointer back to `sp` and the 16-bit program counter to `p + 2` (taken modulo
65536, hence `p + 2` itself whenever that fits 16 bits). -/
theorem call_return (s : Chip8) (NNN : Nat) (hN : NNN < 4096) (hsp : s.stackPointer < 16) :
    ∃ s1, s.execute (0x2000 + NNN) = some s1 ∧
      s1.stack s.stackPointer = s.programCounter ∧
      s1.stackPointer = s.stackPointer + 1 ∧ s1.programCounter = NNN ∧
      (∀ j, j ≠ s.stackPointer → s1.stack j = s.stack j) ∧
      ∀ u : Chip8, u.stackPointer = s.stackPointer + 1 →
        u.stack s.stackPointer = s.programCounter →
        ∃ u', u.execute 0x00EE = some u' ∧ u'.stackPointer = s.stackPointer ∧
          u'.programCounter = (s.programCounter + 2) % 65536 ∧
          (s.programCounter + 2 < 65536 → u'.programCounter = s.programCounter + 2) := by
  have h1 : (0x2000 + NNN) &&& 0xF000 = 0x2000 := by rw [and_F000]; omega
  have h2 : (0x2000 + NNN) &&& 0x0FFF = NNN := by rw [and_0FFF]; omega
  refine ⟨{ s with
      stack := write s.stack s.stackPointer s.programCounter
      stackPointer := (s.stackPointer + 1) % 256
      programCounter := NNN }, ?_, write_same _ _ _, ?_, rfl,
    fun j hj => write_other _ _ _ _ hj, ?_⟩
  · simp only [Chip8.execute, h1, h2, hsp, if_true]
  · show (s.stackPointer + 1) % 256 = _
    omega
  · intro u hu1 hu2
    have e1 : (0x00EE : Nat) &&& 0xF000 = 0x0000 := by decide
    have e2 : (0x00EE : Nat) &&& 0x000F = 0x000E := by decide
    have hsp' : toU8 ((u.stackPointer : Int) - 1) = s.stackPointer := by
      unfold toU8
      omega
    have hlt : toU8 ((u.stackPointer : Int) - 1) < 16 := by rw [hsp']; exact hsp
    refine ⟨{ u with
        stackPointer := toU8 ((u.stackPointer : Int) - 1)
        programCounter := (u.stack (toU8 ((u.stackPointer : Int) - 1)) + 2) % 65536 },
      ?_, hsp', ?_, ?_⟩
    · simp only [Chip8.execute, e1, e2, hlt, if_true]
    · show (u.stack (toU8 ((u.stackPointer : Int) - 1)) + 2) % 65536 = _
      rw [hsp', hu2]
    · intro hp
      show (u.stack (toU8 ((u.stackPointer : Int) - 1)) + 2) % 65536 = _
      rw [hsp', hu2]
      exact Nat.mod_eq_of_lt hp

/-- Witness for C18: a call to 0x300 from 0x2A4 at depth 3. -/
theorem call_return_witness :
    ∃ s1, callDemo.execute (0x2000 + 0x300) = some s1 ∧
      s1.stack callDemo.stackPointer = callDemo.programCounter ∧
      s1.stackPointer = callDemo.stackPointer + 1 ∧ s1.programCounter = 0x300 ∧
      (∀ j, j ≠ callDemo.stackPointer → s1.stack j = callDemo.stack j) ∧
      ∀ u : Chip8, u.stackPointer = callDemo.stackPointer + 1 →
        u.stack callDemo.stackPointer = callDemo.programCounter →
        ∃ u', u.execute 0x00EE = some u' ∧ u'.stackPointer = callDemo.stackPointer ∧
          u'.programCounter = (callDemo.programCounter + 2) % 65536 ∧
          (callDemo.programCounter + 2 < 65536 →
            u'.programCounter = callDemo.programCounter + 2) :=
  call_return callDemo 0x300 (by decide) (by decide)

/-! ## C19: store-registers and load-registers (FX55, FX65) -/

/-- C19: for `X < 16` and an index `I` with `I + X ≤ 4095`: FX55 succeeds, sets
`memory[I + i]` to register `i` for every `i ≤ X`, leaves every other memory byte and all
registers unchanged and sets the index register to `I + X + 1`; an FX65 executed afterwards
from the index value `I` on the bytes FX55 stored restores registers 0..X; and FX65 succeeds,
sets register `i` to `memory[I + i]` for every `i ≤ X`, leaves the registers above `X` and
memory unchanged and sets the index register to `I + X + 1`. -/
theorem store_load_registers (s : Chip8) (X : Nat) (hX : X < 16) (hI : s.index + X ≤ 4095) :
    (∃ s1, s.execute (0xF055 + 256 * X) = some s1 ∧
      (∀ i, i ≤ X → s1.memory (s.index + i) = s.registers i) ∧
      (∀ a, (a < s.index ∨ s.index + X < a) → s1.memory a = s.memory a) ∧
      s1.registers = s.registers ∧ s1.index = s.index + X + 1 ∧
      ∀ u : Chip8, u.index = s.index →
        (∀ i, i ≤ X → u.memory (s.index + i) = s1.memory (s.index + i)) →
        ∃ u', u.execute (0xF065 + 256 * X) = some u' ∧
          ∀ i, i ≤ X → u'.registers i = s.registers i) ∧
    (∃ s2, s.execute (0xF065 + 256 * X) = some s2 ∧
      (∀ i, i ≤ X → s2.registers i = s.memory (s.index + i)) ∧
      (∀ i, X < i → s2.registers i = s.registers i) ∧
      s2.memory = s.memory ∧ s2.index = s.index + X + 1) := by
  have hload : ∀ u : Chip8, u.index + X ≤ 4095 →
      ∃ u', u.execute (0xF065 + 256 * X) = some u' ∧
        (∀ i, i ≤ X → u'.registers i = u.memory (u.index + i)) ∧
        (∀ i, X < i → u'.registers i = u.registers i) ∧
        u'.memory = u.memory ∧ u'.index = u.index + X + 1 := by
    intro u hu
    have h1 : (0xF065 + 256 * X) &&& 0xF000 = 0xF000 := by rw [and_F000]; omega
    have h2 : (0xF065 + 256 * X) &&& 0x00FF = 0x0065 := by rw [and_00FF]; omega
    have h3 : ((0xF065 + 256 * X) &&& 0x0F00) >>> 8 = X := by rw [and_0F00_shift]; omega
    obtain ⟨r, hr, hin, hout⟩ := forLoop_copy_some (loadReg u.memory u.index)
      (fun i => u.index + i < 4096) 0 (fun i => u.memory (u.index + i))
      (fun i m h => loadReg_some _ _ i m h) (X + 1) 0 u.registers
      (fun i _ hi => by show u.index + i < 4096; omega)
    refine ⟨{ u with
        registers := r
        index := (u.index + (X + 1)) % 65536
        programCounter := (u.programCounter + 2) % 65536 }, ?_, ?_, ?_, rfl, ?_⟩
    · simp only [Chip8.execute, h1, h2, h3, hr, Option.map_some']
    · intro i hi
      have := hin i (Nat.zero_le _) (by omega)
      rw [Nat.zero_add] at this
      exact this
    · intro i hi
      exact hout i (Or.inr (by omega))
    · show (u.index + (X + 1)) % 65536 = _
      omega
  constructor
  · have h1 : (0xF055 + 256 * X) &&& 0xF000 = 0xF000 := by rw [and_F000]; omega
    have h2 : (0xF055 + 256 * X) &&& 0x00FF = 0x0055 := by rw [and_00FF]; omega
    have h3 : ((0xF055 + 256 * X) &&& 0x0F00) >>> 8 = X := by rw [and_0F00_shift]; omega
    obtain ⟨m, hm, hin, hout⟩ := forLoop_copy_some (storeReg s.registers s.index)
      (fun i => s.index + i < 4096) s.index s.registers
      (fun i m h => storeReg_some _ _ i m h) (X + 1) 0 s.memory
      (fun i _ hi => by show s.index + i < 4096; omega)
    refine ⟨{ s with
        memory := m
        index := (s.index + (X + 1)) % 65536
        programCounter := (s.programCounter + 2) % 65536 }, ?_, ?_, ?_, rfl, ?_, ?_⟩
    · simp only [Chip8.execute, h1, h2, h3, hm, Option.map_some']
    · intro i hi
      exact hin i (Nat.zero_le _) (by omega)
    · intro a ha
      exact hout a (by omega)
    · show (s.index + (X + 1)) % 65536 = _
      omega
    · intro u hu hmem
      obtain ⟨u', he, hregs, -⟩ := hload u (by rw [hu]; exact hI)
      refine ⟨u', he, fun i hi => ?_⟩
      rw [hregs i hi, hu, hmem i hi]
      exact hin i (Nat.zero_le _) (by omega)
  · exact hload s hI

/-- Witness for C19: registers V0..V2 stored at and loaded from index 0x300. -/
theorem store_load_registers_witness :
    (∃ s1, bcdDemo.execute (0xF055 + 256 * 2) = some s1 ∧
      (∀ i, i ≤ 2 → s1.memory (bcdDemo.index + i) = bcdDemo.registers i) ∧
      (∀ a, (a < bcdDemo.index ∨ bcdDemo.index + 2 < a) → s1.memory a = bcdDemo.memory a) ∧
      s1.registers = bcdDemo.registers ∧ s1.index = bcdDemo.index + 2 + 1 ∧
      ∀ u : Chip8, u.index = bcdDemo.index →
        (∀ i, i ≤ 2 → u.memory (bcdDemo.index + i) = s1.memory (bcdDemo.index + i)) →
        ∃ u', u.execute (0xF065 + 256 * 2) = some u' ∧
          ∀ i, i ≤ 2 → u'.registers i = bcdDemo.registers i) ∧
    (∃ s2, bcdDemo.execute (0xF065 + 256 * 2) = some s2 ∧
      (∀ i, i ≤ 2 → s2.registers i = bcdDemo.memory (bcdDemo.index + i)) ∧
      (∀ i, 2 < i → s2.registers i = bcdDemo.registers i) ∧
      s2.memory = bcdDemo.memory ∧ s2.index = bcdDemo.index + 2 + 1) :=
  store_load_registers bcdDemo 2 (by decide) (by decide)

/-! ## C20: the conditional skips -/

/-- C20 (as stated, refuted): with V0 = 16, a register value within 0..255, `0xE09E` and
`0xE0A1` read `keypad[16]`, outside the 16-key array: the keypad index is not kept within
0..15 and `execute` has no result. -/
theorem skip_keypad_counterexample :
    skipDemo.registers 0 = 16 ∧ skipDemo.registers 0 ≤ 255 ∧
    (¬ ∃ s', skipDemo.execute 0xE09E = some s') ∧
    (¬ ∃ s', skipDemo.execute 0xE0A1 = some s') := by
  refine ⟨by decide, by decide, ?_, ?_⟩
  · rintro ⟨s', h⟩
    have h0 : (skipDemo.execute 0xE09E).isSome = false := by decide
    rw [h] at h0
    cases h0
  · rintro ⟨s', h⟩
    have h0 : (skipDemo.execute 0xE0A1).isSome = false := by decide
    rw [h] at h0
    cases h0

/-- Two steps of 2 of the 16-bit program counter are one step of 4. -/
theorem pc_skip (pc : Nat) : ((pc + 2) % 65536 + 2) % 65536 = (pc + 4) % 65536 := by
  omega

/-- C20 (amended): each skip changes nothing but the 16-bit program counter, which becomes
`(pc + 4) mod 65536` when the condition holds and `(pc + 2) mod 65536` otherwise; the
conditions are register X = KK (3XKK), register X ≠ KK (4XKK), register X = register Y
(5XY0), register X ≠ register Y (9XY0) and, provided register X is below 16, key
`keypad[register X]` down (EX9E) and up (EXA1).  With register X at 16 or more EX9E and EXA1
index outside the keypad. -/
theorem conditional_skips (s : Chip8) (X Y KK : Nat) (hX : X < 16) (hY : Y < 16)
    (hKK : KK < 256) :
    s.execute (0x3000 + 256 * X + KK) = some { s with
      programCounter := (s.programCounter + (if s.registers X = KK then 4 else 2)) % 65536 } ∧
    s.execute (0x4000 + 256 * X + KK) = some { s with
      programCounter := (s.programCounter + (if s.registers X ≠ KK then 4 else 2)) % 65536 } ∧
    s.execute (0x5000 + 256 * X + 16 * Y) = some { s with
      programCounter :=
        (s.programCounter + (if s.registers X = s.registers Y then 4 else 2)) % 65536 } ∧
    s.execute (0x9000 + 256 * X + 16 * Y) = some { s with
      programCounter :=
        (s.programCounter + (if s.registers X ≠ s.registers Y then 4 else 2)) % 65536 } ∧
    (s.registers X < 16 →
      s.execute (0xE09E + 256 * X) = some { s with
        programCounter :=
          (s.programCounter + (if s.keypad (s.registers X) ≠ 0 then 4 else 2)) % 65536 } ∧
      s.execute (0xE0A1 + 256 * X) = some { s with
        programCounter :=
          (s.programCounter + (if s.keypad (s.registers X) = 0 then 4 else 2)) % 65536 }) ∧
    (16 ≤ s.registers X →
      s.execute (0xE09E + 256 * X) = none ∧ s.execute (0xE0A1 + 256 * X) = none) := by
  refine ⟨?_, ?_, ?_, ?_, ?_, ?_⟩
  · have h1 : (0x3000 + 256 * X + KK) &&& 0xF000 = 0x3000 := by rw [and_F000]; omega
    have h2 : (0x3000 + 256 * X + KK) &&& 0x00FF = KK := by rw [and_00FF]; omega
    have h3 : ((0x3000 + 256 * X + KK) &&& 0x0F00) >>> 8 = X := by rw [and_0F00_shift]; omega
    simp only [Chip8.execute, h1, h2, h3]
    by_cases hc : s.registers X = KK
    · rw [if_pos hc.symm, if_pos hc, pc_skip]
    · rw [if_neg (fun h => hc h.symm), if_neg hc]
  · have h1 : (0x4000 + 256 * X + KK) &&& 0xF000 = 0x4000 := by rw [and_F000]; omega
    have h2 : (0x4000 + 256 * X + KK) &&& 0x00FF = KK := by rw [and_00FF]; omega
    have h3 : ((0x4000 + 256 * X + KK) &&& 0x0F00) >>> 8 = X := by rw [and_0F00_shift]; omega
    simp only [Chip8.execute, h1, h2, h3]
    by_cases hc : s.registers X = KK
    · rw [if_neg (fun h => h hc.symm), if_neg (fun h => h hc)]
    · rw [if_pos (fun h => hc h.symm), if_pos hc, pc_skip]
  · have h1 : (0x5000 + 256 * X + 16 * Y) &&& 0xF000 = 0x5000 := by rw [and_F000]; omega
    have h3 : ((0x5000 + 256 * X + 16 * Y) &&& 0x0F00) >>> 8 = X := by
      rw [and_0F00_shift]; omega
    have h4 : ((0x5000 + 256 * X + 16 * Y) &&& 0x00F0) >>> 4 = Y := by
      rw [and_00F0_shift]; omega
    simp only [Chip8.execute, h1, h3, h4]
    by_cases hc : s.registers X = s.registers Y
    · rw [if_pos hc.symm, if_pos hc, pc_skip]
    · rw [if_neg (fun h => hc h.symm), if_neg hc]
  · have h1 : (0x9000 + 256 * X + 16 * Y) &&& 0xF000 = 0x9000 := by rw [and_F000]; omega
    have h3 : ((0x9000 + 256 * X + 16 * Y) &&& 0x0F00) >>> 8 = X := by
      rw [and_0F00_shift]; omega
    have h4 : ((0x9000 + 256 * X + 16 * Y) &&& 0x00F0) >>> 4 = Y := by
      rw [and_00F0_shift]; omega
    simp only [Chip8.execute, h1, h3, h4]
    by_cases hc : s.registers X = s.registers Y
    · rw [if_neg (fun h => h hc.symm), if_neg (fun h => h hc)]
    · rw [if_pos (fun h => hc h.symm), if_pos hc, pc_skip]
  · intro hlt
    constructor
    · have h1 : (0xE09E + 256 * X) &&& 0xF000 = 0xE000 := by rw [and_F000]; omega
      have h2 : (0xE09E + 256 * X) &&& 0x00FF = 0x009E := by rw [and_00FF]; omega
      have h3 : ((0xE09E + 256 * X) &&& 0x0F00) >>> 8 = X := by rw [and_0F00_shift]; omega
      simp only [Chip8.execute, h1, h2, h3, hlt, if_true]
      by_cases hc : s.keypad (s.registers X) = 0
      · rw [if_neg (fun h => h hc), if_neg (fun h => h hc)]
      · rw [if_pos hc, if_pos hc, pc_skip]
    · have h1 : (0xE0A1 + 256 * X) &&& 0xF000 = 0xE000 := by rw [and_F000]; omega
      have h2 : (0xE0A1 + 256 * X) &&& 0x00FF = 0x00A1 := by rw [and_00FF]; omega
      have h3 : ((0xE0A1 + 256 * X) &&& 0x0F00) >>> 8 = X := by rw [and_0F00_shift]; omega
      simp only [Chip8.execute, h1, h2, h3, hlt, if_true]
      by_cases hc : s.keypad (s.registers X) = 0
      · rw [if_pos hc, if_pos hc, pc_skip]
      · rw [if_neg hc, if_neg hc]
  · intro hge
    have hlt : ¬ s.registers X < 16 := by omega
    constructor
    · have h1 : (0xE09E + 256 * X) &&& 0xF000 = 0xE000 := by rw [and_F000]; omega
      have h2 : (0xE09E + 256 * X) &&& 0x00FF = 0x009E := by rw [and_00FF]; omega
      have h3 : ((0xE09E + 256 * X) &&& 0x0F00) >>> 8 = X := by rw [and_0F00_shift]; omega
      simp only [Chip8.execute, h1, h2, h3, hlt, if_false]
    · have h1 : (0xE0A1 + 256 * X) &&& 0xF000 = 0xE000 := by rw [and_F000]; omega
      have h2 : (0xE0A1 + 256 * X) &&& 0x00FF = 0x00A1 := by rw [and_00FF]; omega
      have h3 : ((0xE0A1 + 256 * X) &&& 0x0F00) >>> 8 = X := by rw [and_0F00_shift]; omega
      simp only [Chip8.execute, h1, h2, h3, hlt, if_false]

/-- Witness for C20: V1 = 7 = V2, KK = 7 and key 7 down. -/
theorem conditional_skips_witness :
    skipDemo.execute (0x3000 + 256 * 1 + 7) = some { skipDemo with
      programCounter :=
        (skipDemo.programCounter + (if skipDemo.registers 1 = 7 then 4 else 2)) % 65536 } ∧
    skipDemo.execute (0x4000 + 256 * 1 + 7) = some { skipDemo with
      programCounter :=
        (skipDemo.programCounter + (if skipDemo.registers 1 ≠ 7 then 4 else 2)) % 65536 } ∧
    skipDemo.execute (0x5000 + 256 * 1 + 16 * 2) = some { skipDemo with
      programCounter :=
        (skipDemo.programCounter +
          (if skipDemo.registers 1 = skipDemo.registers 2 then 4 else 2)) % 65536 } ∧
    skipDemo.execute (0x9000 + 256 * 1 + 16 * 2) = some { skipDemo with
      programCounter :=
        (skipDemo.programCounter +
          (if skipDemo.registers 1 ≠ skipDemo.registers 2 then 4 else 2)) % 65536 } ∧
    (skipDemo.registers 1 < 16 →
      skipDemo.execute (0xE09E + 256 * 1) = some { skipDemo with
        programCounter :=
          (skipDemo.programCounter +
            (if skipDemo.keypad (skipDemo.registers 1) ≠ 0 then 4 else 2)) % 65536 } ∧
      skipDemo.execute (0xE0A1 + 256 * 1) = some { skipDemo with
        programCounter :=
          (skipDemo.programCounter +
            (if skipDemo.keypad (skipDemo.registers 1) = 0 then 4 else 2)) % 65536 }) ∧
    (16 ≤ skipDemo.registers 1 →
      skipDemo.execute (0xE09E + 256 * 1) = none ∧ skipDemo.execute (0xE0A1 + 256 * 1) = none) :=
  conditional_skips skipDemo 1 2 7 (by decide) (by decide) (by decide)

/-! ## C21: add-to-index (FX1E) -/

/-- C21 (as stated, refuted): with `X = F` the flag is written to register F before
`index += registers[X]` reads it.  From VF = 5 and I = 0x300 the opcode `0xFF1E` leaves
I = 0x300, not 0x305. -/
theorem add_to_index_flag_operand_counterexample :
    indexFlagOperand.registers 0xF = 5 ∧ indexFlagOperand.index = 0x300 ∧
    (indexFlagOperand.execute 0xFF1E).map (fun t => (t.registers 0xF, t.index))
      = some (0, 0x300) ∧
    ¬ ∃ s', indexFlagOperand.execute 0xFF1E = some s' ∧
        s'.registers 0xF = (if 0x300 + 5 > 0xFFF then 1 else 0) ∧
        s'.index = (0x300 + 5) % 65536 := by
  refine ⟨by decide, by decide, by decide, ?_⟩
  rintro ⟨s', h, -, h0⟩
  have h1 : (indexFlagOperand.execute 0xFF1E).map (fun t => t.index) = some 0x300 := by decide
  rw [h] at h1
  simp at h1
  omega

/-- C21 (amended): for every register X holding `v` and the index register holding `I`,
`execute` of FX1E succeeds and sets register F to 1 if `I + v > 0xFFF` and to 0 otherwise;
for X other than F it leaves `(I + v) mod 65536` in the index register; for X = F the flag
is written first and the index register receives `(I + flag) mod 65536`. -/
theorem add_to_index (s : Chip8) (X v I : Nat) (hX : X < 16)
    (hXv : s.registers X = v) (hI : s.index = I) :
    ∃ s', s.execute (0xF01E + 256 * X) = some s' ∧
      s'.registers 0xF = (if I + v > 0xFFF then 1 else 0) ∧
      (X ≠ 0xF → s'.index = (I + v) % 65536) ∧
      (X = 0xF → s'.index = (I + (if I + v > 0xFFF then 1 else 0)) % 65536) := by
  have h1 : (0xF01E + 256 * X) &&& 0xF000 = 0xF000 := by rw [and_F000]; omega
  have h2 : (0xF01E + 256 * X) &&& 0x00FF = 0x001E := by rw [and_00FF]; omega
  have h3 : ((0xF01E + 256 * X) &&& 0x0F00) >>> 8 = X := by rw [and_0F00_shift]; omega
  refine ⟨_, by simp only [Chip8.execute, h1, h2, h3]; rfl, ?_, ?_, ?_⟩
  · simp [hXv, hI]
  · intro hXF
    simp [write_other _ _ _ _ hXF, hXv, hI]
  · intro hXF
    subst hXF
    simp [hXv, hI]

/-- Witness for C21: V3 = 0x20 and I = 0xFF0 give I = 0x1010 with the flag set; VF = 0x20
and I = 0xFF0 with the opcode `0xFF1E` give the flag 1 and I = 0xFF1. -/
theorem add_to_index_witness :
    (∃ s', (withIndex (withRegisters (write (fun _ => 0) 3 0x20)) 0xFF0).execute
        (0xF01E + 256 * 3) = some s' ∧
      s'.registers 0xF = (if 0xFF0 + 0x20 > 0xFFF then 1 else 0) ∧
      (3 ≠ 0xF → s'.index = (0xFF0 + 0x20) % 65536) ∧
      (3 = 0xF → s'.index = (0xFF0 + (if 0xFF0 + 0x20 > 0xFFF then 1 else 0)) % 65536)) ∧
    (∃ s', (withIndex (withRegisters (write (fun _ => 0) 0xF 0x20)) 0xFF0).execute
        (0xF01E + 256 * 0xF) = some s' ∧
      s'.registers 0xF = (if 0xFF0 + 0x20 > 0xFFF then 1 else 0) ∧
      (0xF ≠ 0xF → s'.index = (0xFF0 + 0x20) % 65536) ∧
      (0xF = 0xF →
        s'.index = (0xFF0 + (if 0xFF0 + 0x20 > 0xFFF then 1 else 0)) % 65536)) :=
  ⟨add_to_index (withIndex (withRegisters (write (fun _ => 0) 3 0x20)) 0xFF0) 3 0x20 0xFF0
      (by decide) (by decide) (by decide),
    add_to_index (withIndex (withRegisters (write (fun _ => 0) 0xF 0x20)) 0xFF0) 0xF 0x20
      0xFF0 (by decide) (by decide) (by decide)⟩

/-! ## C22: index-to-font-digit (FX29) -/

/-- C22: for a register X holding the 8-bit value `v`, `execute` of FX29 succeeds, sets the
index register to `5 * v` and leaves memory alone; in a machine just constructed the bytes at
`5 * d + k` (digit `d < 16`, row `k < 5`) are `fontset[5 * d + k]`; so when memory still
holds the font and `v` is a digit, the five bytes at the new index are the rows of the glyph
of `v`. -/
theorem font_digit (s : Chip8) (X v : Nat) (hX : X < 16) (hv : v < 256)
    (hXv : s.registers X = v) :
    ∃ s', s.execute (0xF029 + 256 * X) = some s' ∧
      s'.index = 5 * v ∧ s'.memory = s.memory ∧
      (∀ delay0 sound0 rng d k, d < 16 → k < 5 →
        (Chip8.new delay0 sound0 rng).memory (5 * d + k) = fontset.getD (5 * d + k) 0) ∧
      (v < 16 → (∀ a, a < 80 → s.memory a = fontset.getD a 0) →
        ∀ k, k < 5 → s'.memory (s'.index + k) = fontset.getD (5 * v + k) 0) := by
  have h1 : (0xF029 + 256 * X) &&& 0xF000 = 0xF000 := by rw [and_F000]; omega
  have h2 : (0xF029 + 256 * X) &&& 0x00FF = 0x0029 := by rw [and_00FF]; omega
  have h3 : ((0xF029 + 256 * X) &&& 0x0F00) >>> 8 = X := by rw [and_0F00_shift]; omega
  have hidx : (s.registers X * 5) % 65536 = 5 * v := by rw [hXv]; omega
  refine ⟨_, by simp only [Chip8.execute, h1, h2, h3]; rfl, ?_, ?_, ?_, ?_⟩
  · exact hidx
  · rfl
  · intro delay0 sound0 rng d k hd hk
    exact (constructor_fields delay0 sound0 rng).2.2.2.2.2.2.2.1 (5 * d + k) (by omega)
  · intro hv16 hfont k hk
    show s.memory ((s.registers X * 5) % 65536 + k) = _
    rw [hidx]
    exact hfont _ (by omega)

/-- Witness for C22: the fresh machine with V2 = 0xA and the opcode `0xF229`. -/
theorem font_digit_witness :
    ∃ s', (withRegisters (write (fun _ => 0) 2 0xA)).execute (0xF029 + 256 * 2) = some s' ∧
      s'.index = 5 * 0xA ∧ s'.memory = (withRegisters (write (fun _ => 0) 2 0xA)).memory ∧
      (∀ delay0 sound0 rng d k, d < 16 → k < 5 →
        (Chip8.new delay0 sound0 rng).memory (5 * d + k) = fontset.getD (5 * d + k) 0) ∧
      (0xA < 16 →
        (∀ a, a < 80 → (withRegisters (write (fun _ => 0) 2 0xA)).memory a
          = fontset.getD a 0) →
        ∀ k, k < 5 → s'.memory (s'.index + k) = fontset.getD (5 * 0xA + k) 0) :=
  font_digit (withRegisters (write (fun _ => 0) 2 0xA)) 2 0xA (by decide) (by decide)
    (by decide)

/-! ## C23: clear-screen (00E0) -/

/-- C23: `execute` of `0x00E0` succeeds on every state; afterwards every framebuffer cell is
0, the dirty flag is set, the program counter is `(pc + 2) mod 65536` (that is `pc + 2`
unless the 16-bit counter wraps), and registers, index register, memory, stack, stack
pointer and both timers are unchanged. -/
theorem clear_screen (s : Chip8) :
    ∃ s', s.execute 0x00E0 = some s' ∧
      (∀ p, s'.video p = 0) ∧ s'.drawFlag = true ∧
      s'.programCounter = (s.programCounter + 2) % 65536 ∧
      (s.programCounter + 2 < 65536 → s'.programCounter = s.programCounter + 2) ∧
      s'.registers = s.registers ∧ s'.index = s.index ∧ s'.memory = s.memory ∧
      s'.stack = s.stack ∧ s'.stackPointer = s.stackPointer ∧
      s'.delayTimer = s.delayTimer ∧ s'.soundTimer = s.soundTimer ∧
      s'.keypad = s.keypad :=
  ⟨_, rfl, fun _ => rfl, rfl, rfl, fun h => Nat.mod_eq_of_lt h, rfl, rfl, rfl, rfl, rfl,
    rfl, rfl, rfl⟩

/-- Witness for C23: clear-screen on a machine with cell 259 on. -/
theorem clear_screen_witness :
    drawOverlap.video 259 = 1 ∧
    ∃ s', drawOverlap.execute 0x00E0 = some s' ∧
      (∀ p, s'.video p = 0) ∧ s'.drawFlag = true ∧
      s'.programCounter = (drawOverlap.programCounter + 2) % 65536 ∧
      (drawOverlap.programCounter + 2 < 65536 →
        s'.programCounter = drawOverlap.programCounter + 2) ∧
      s'.registers = drawOverlap.registers ∧ s'.index = drawOverlap.index ∧
      s'.memory = drawOverlap.memory ∧
      s'.stack = drawOverlap.stack ∧ s'.stackPointer = drawOverlap.stackPointer ∧
      s'.delayTimer = drawOverlap.delayTimer ∧ s'.soundTimer = drawOverlap.soundTimer ∧
      s'.keypad = drawOverlap.keypad :=
  ⟨by decide, clear_screen drawOverlap⟩

/-! ## Frame lemmas for the framebuffer and the keypad -/

/-- No case of `execute` assigns the keypad. -/
theorem execute_keypad (s t : Chip8) (op : Nat) (h : s.execute op = some t) :
    t.keypad = s.keypad := by
  unfold Chip8.execute at h
  dsimp only at h
  repeat' split at h
  all_goals first
    | (cases h <;> rfl)
    | (simp only [Option.map_eq_some'] at h; obtain ⟨m, -, rfl⟩ := h; rfl)

/-- Only the family D (draw-sprite) and the words of family 0 with low nibble 0 (the case
commented `00E0`) assign the framebuffer or the dirty flag. -/
theorem execute_video (s t : Chip8) (op : Nat) (h : s.execute op = some t)
    (hD : op &&& 0xF000 ≠ 0xD000) (hC : op &&& 0xF000 ≠ 0x0000 ∨ op &&& 0x000F ≠ 0x0000) :
    t.video = s.video ∧ t.drawFlag = s.drawFlag := by
  unfold Chip8.execute at h
  dsimp only at h
  repeat' split at h
  all_goals first
    | (cases h <;> exact ⟨rfl, rfl⟩)
    | (simp only [Option.map_eq_some'] at h; obtain ⟨m, -, rfl⟩ := h; exact ⟨rfl, rfl⟩)
    | (exfalso; exact hD (by assumption))
    | (exfalso; rcases hC with hop | hop <;> exact hop (by assumption))

/-- One cycle never assigns the keypad, and assigns the framebuffer and the dirty flag only
when the fetched word is of family D or of family 0 with low nibble 0. -/
theorem emulateCycle_frame (s s' : Chip8) (h : s.emulateCycle = some s') :
    s'.keypad = s.keypad ∧
    (fetch s &&& 0xF000 ≠ 0xD000 →
      (fetch s &&& 0xF000 ≠ 0x0000 ∨ fetch s &&& 0x000F ≠ 0x0000) →
      s'.video = s.video ∧ s'.drawFlag = s.drawFlag) := by
  obtain ⟨-, t, hex, rfl⟩ := emulateCycle_some s s' h
  refine ⟨execute_keypad { s with opCode := fetch s } t _ hex, fun hD hC => ?_⟩
  exact execute_video { s with opCode := fetch s } t _ hex hD hC

/-! ## C24: framebuffer and keypad frame -/

/-- C24 (code at the failing input): the words `0x0120` and `0x0000` are neither 00E0 nor
DXYN, yet one cycle that fetches them clears the framebuffer (the lit cell goes off) and sets
the dirty flag, because family 0 is decoded on the low nibble only. -/
theorem frame_loose_clear :
    fetch litScreen = 0x0120 ∧ litScreen.video 7 = 1 ∧ litScreen.drawFlag = false ∧
    (litScreen.emulateCycle).map (fun t => (t.video 7, t.drawFlag)) = some (0, true) ∧
    fetch drawOverlap = 0x0000 ∧ drawOverlap.video 259 = 1 ∧ drawOverlap.drawFlag = false ∧
    (drawOverlap.emulateCycle).map (fun t => (t.video 259, t.drawFlag)) = some (0, true) := by
  decide

/-! ## C25: framebuffer cells stay binary -/

/-- A property kept by every successful step of a loop is kept by the loop. -/
theorem forLoop_invariant {σ : Type} (body : Nat → σ → Option σ) (P : σ → Prop)
    (hbody : ∀ i st st', P st → body i st = some st' → P st') :
    ∀ (n i0 : Nat) (st st' : σ), P st → forLoop body n i0 st = some st' → P st' := by
  intro n
  induction n with
  | zero =>
    intro i0 st st' hP h
    cases h
    exact hP
  | succ n ih =>
    intro i0 st st' hP h
    rw [forLoop] at h
    cases hb : body i0 st with
    | none => rw [hb] at h; cases h
    | some st1 =>
      rw [hb, Option.some_bind] at h
      exact ih (i0 + 1) st1 st' (hbody i0 st st1 hP hb) h

/-- The pixel step of DXYN keeps every framebuffer cell in 0..1: it writes `cell ^ 1`. -/
theorem drawPixel_binary (x y yline pixel xline : Nat) (st st' : (Nat → Nat) × (Nat → Nat))
    (hb : ∀ p, st.1 p = 0 ∨ st.1 p = 1) (h : drawPixel x y yline pixel xline st = some st') :
    ∀ p, st'.1 p = 0 ∨ st'.1 p = 1 := by
  have hw : ∀ p, write st.1 (x + xline + (y + yline) * 64)
      (st.1 (x + xline + (y + yline) * 64) ^^^ 1) p = 0 ∨
      write st.1 (x + xline + (y + yline) * 64)
        (st.1 (x + xline + (y + yline) * 64) ^^^ 1) p = 1 := by
    intro p
    by_cases hp : p = x + xline + (y + yline) * 64
    · rw [hp, write_same]
      rcases hb (x + xline + (y + yline) * 64) with h0 | h1
      · rw [h0]; exact Or.inr rfl
      · rw [h1]; exact Or.inl rfl
    · rw [write_other _ _ _ _ hp]
      exact hb p
  unfold drawPixel at h
  split_ifs at h <;> cases h <;> first | exact hw | exact hb

/-- The sprite loops of DXYN keep every framebuffer cell in 0..1. -/
theorem drawLoop_binary (memory : Nat → Nat) (index x y n i0 : Nat)
    (st st' : (Nat → Nat) × (Nat → Nat))
    (h : forLoop (drawRow memory index x y) n i0 st = some st')
    (hb : ∀ p, st.1 p = 0 ∨ st.1 p = 1) : ∀ p, st'.1 p = 0 ∨ st'.1 p = 1 := by
  refine forLoop_invariant (drawRow memory index x y) (fun st => ∀ p, st.1 p = 0 ∨ st.1 p = 1)
    ?_ n i0 st st' hb h
  intro yline st1 st2 h1 hrow
  unfold drawRow at hrow
  split_ifs at hrow
  exact forLoop_invariant (drawPixel x y yline (memory (index + yline)))
    (fun st => ∀ p, st.1 p = 0 ∨ st.1 p = 1)
    (fun xline a b ha hab => drawPixel_binary x y yline _ xline a b ha hab) 8 0 st1 st2 h1 hrow

/-- Every case of `execute` keeps every framebuffer cell in 0..1. -/
theorem execute_binary (s t : Chip8) (op : Nat) (h : s.execute op = some t)
    (hb : ∀ p, s.video p = 0 ∨ s.video p = 1) : ∀ p, t.video p = 0 ∨ t.video p = 1 := by
  unfold Chip8.execute at h
  dsimp only at h
  repeat' split at h
  all_goals first
    | (cases h <;> exact hb)
    | (cases h <;> exact fun _ => Or.inl rfl)
    | (simp only [Option.map_eq_some'] at h; obtain ⟨m, -, rfl⟩ := h; exact hb)
    | (cases h; exact drawLoop_binary _ _ _ _ _ _ _ _ (by assumption) hb)

/-- The method `loadROM` leaves the framebuffer alone. -/
theorem loadROM_video (s s' : Chip8) (file : Option (List Nat))
    (h : s.loadROM file = some s') : s'.video = s.video := by
  unfold Chip8.loadROM at h
  split at h
  · cases h; rfl
  · simp only [Option.map_eq_some'] at h
    obtain ⟨m, -, rfl⟩ := h
    rfl

/-- C25 (as stated, refuted): the ROM `AF FF F1 55` contains no draw (neither fetched word
is of family D), so every draw of the run stays inside the buffer; yet its second cycle, an
FX55 with X = 1 at index 0xFFF, writes `memory[4096]`, outside the array, and the run
reaches no state whose cells are 0 or 1.  The same holds for a `loadROM` of 3585 bytes. -/
theorem video_binary_counterexample :
    fetch storePastMemory = 0xAFFF ∧ 0xAFFF &&& 0xF000 ≠ 0xD000 ∧
    (runCycles 1 storePastMemory).map (fun t => (t.index, fetch t)) = some (0xFFF, 0xF155) ∧
    0xF155 &&& 0xF000 ≠ 0xD000 ∧
    (¬ ∃ s', runCycles 2 storePastMemory = some s' ∧ ∀ p, s'.video p = 0 ∨ s'.video p = 1) ∧
    (¬ ∃ s', (Chip8.new 0 0 (fun _ => 0)).loadROM (some (List.replicate 3585 0xAA)) = some s' ∧
        ∀ p, s'.video p = 0 ∨ s'.video p = 1) := by
  refine ⟨by decide, by decide, by decide, by decide, ?_, ?_⟩
  · rintro ⟨s', h, -⟩
    have h1 : (runCycles 2 storePastMemory).isSome = false := by decide
    rw [h] at h1
    cases h1
  · rintro ⟨s', h, -⟩
    rw [loadROM_none_of_oversize _ _ (by rw [List.length_replicate]; decide)] at h
    cases h

/-- C25 (amended): in every reachable state (the constructed machine followed by `loadROM`,
`setKeys` and `emulateCycle` steps none of which indexes outside an array, so that every
draw stays inside the framebuffer) every framebuffer cell holds 0 or 1, and so the test
`video[p] == 1` of draw-sprite holds exactly when the cell is not 0. -/
theorem video_binary (s : Chip8) (h : Reachable s) :
    ∀ p, (s.video p = 0 ∨ s.video p = 1) ∧ (s.video p = 1 ↔ s.video p ≠ 0) := by
  have hb : ∀ p, s.video p = 0 ∨ s.video p = 1 := by
    induction h with
    | construct d snd rng => exact fun _ => Or.inl rfl
    | load s s' file _ hl ih => rw [loadROM_video s s' file hl]; exact ih
    | keys s ks _ ih => exact ih
    | cycle s s' _ hc ih =>
      obtain ⟨-, t, hex, rfl⟩ := emulateCycle_some s s' hc
      exact execute_binary { s with opCode := fetch s } t _ hex ih
  intro p
  refine ⟨hb p, ?_⟩
  rcases hb p with h0 | h1
  · rw [h0]; decide
  · rw [h1]; decide

/-- Witness for C25: the state after loading `D0 15` and running one cycle, which draws the
glyph of 0 (cell 0 is on, cell 4 is off). -/
theorem video_binary_witness :
    drawnOnce.video 0 = 1 ∧ drawnOnce.video 4 = 0 ∧
    ∀ p, (drawnOnce.video p = 0 ∨ drawnOnce.video p = 1) ∧
      (drawnOnce.video p = 1 ↔ drawnOnce.video p ≠ 0) :=
  ⟨by decide, by decide,
    video_binary drawnOnce
      (Reachable.cycle (loaded [0xD0, 0x15]) _
        (Reachable.load (Chip8.new 0 0 (fun _ => 0)) _ (some [0xD0, 0x15])
          (Reachable.construct 0 0 (fun _ => 0)) rfl) rfl)⟩

/-! ## C26: an unrecognised opcode stalls the machine -/

/-- The forms `8XY8`, `EX00`, `FX00` and `0NN1` reach a `default:` branch. -/
theorem reachesDefault_examples (X Y NN : Nat) (hX : X < 16) (hY : Y < 16) (hNN : NN < 256) :
    reachesDefault (0x8008 + 256 * X + 16 * Y) ∧ reachesDefault (0xE000 + 256 * X) ∧
    reachesDefault (0xF000 + 256 * X) ∧ reachesDefault (0x0001 + 16 * NN) := by
  unfold reachesDefault
  simp only [and_F000, and_000F, and_00FF, List.mem_cons, List.mem_singleton,
    List.not_mem_nil, or_false, not_or]
  refine ⟨?_, ?_, ?_, ?_⟩
  · right; left; omega
  · right; right; left; omega
  · right; right; right; omega
  · left; omega

/-- One cycle on a word that reaches a `default:` branch: the word is latched in `opCode` and
reported on `std::cerr`, then the timers tick. -/
theorem emulateCycle_default (s : Chip8) (hpc : s.programCounter + 1 < 4096)
    (hdef : reachesDefault (fetch s)) :
    s.emulateCycle
      = some (timerTick { s with opCode := fetch s, cerr := fetch s :: s.cerr }) := by
  rw [emulateCycle_eq s hpc, execute_default _ _ hdef]
  rfl

/-- Any number of cycles on a word that reaches a `default:` branch. -/
theorem runCycles_default (n : Nat) : ∀ (s : Chip8), s.programCounter + 1 < 4096 →
    reachesDefault (fetch s) →
    ∃ s', runCycles n s = some s' ∧
      s'.programCounter = s.programCounter ∧ fetch s' = fetch s ∧
      s'.registers = s.registers ∧ s'.index = s.index ∧ s'.memory = s.memory ∧
      s'.stack = s.stack ∧ s'.stackPointer = s.stackPointer ∧ s'.video = s.video ∧
      s'.drawFlag = s.drawFlag ∧ s'.keypad = s.keypad ∧
      s'.cerr = List.replicate n (fetch s) ++ s.cerr := by
  induction n with
  | zero => exact fun s _ _ => ⟨s, rfl, rfl, rfl, rfl, rfl, rfl, rfl, rfl, rfl, rfl, rfl, rfl⟩
  | succ n ih =>
    intro s hpc hdef
    have h1 := emulateCycle_default s hpc hdef
    have hf : fetch (timerTick { s with opCode := fetch s, cerr := fetch s :: s.cerr })
        = fetch s := rfl
    obtain ⟨s2, hs2, f1, f2, f3, f4, f5, f6, f7, f8, f9, f10, f11⟩ :=
      ih (timerTick { s with opCode := fetch s, cerr := fetch s :: s.cerr }) hpc
        (by rw [hf]; exact hdef)
    refine ⟨s2, by simp only [runCycles, h1, Option.some_bind, hs2],
      f1, f2.trans hf, f3, f4, f5, f6, f7, f8, f9, f10, ?_⟩
    rw [f11, hf]
    show List.replicate n (fetch s) ++ fetch s :: s.cerr = _
    rw [List.replicate_succ', List.append_assoc]
    rfl

/-- C26: when the program counter points inside memory at a word that reaches a `default:`
branch of `execute`, one `emulateCycle` succeeds and leaves the program counter, registers,
index register, memory, stack, stack pointer, framebuffer, dirty flag and keypad unchanged
(only the timers tick; the word is latched in `opCode` and reported on `std::cerr`); hence
for every `n` the state after `n` cycles has the same program counter and fetches the same
word, with `n` reports made.  The forms 8XY8, EX00, FX00 and 0NN1 are such words. -/
theorem unknown_opcode_stalls (s : Chip8) (hpc : s.programCounter + 1 < 4096)
    (hdef : reachesDefault (fetch s)) :
    (∃ s', s.emulateCycle = some s' ∧
      s'.programCounter = s.programCounter ∧ s'.registers = s.registers ∧
      s'.index = s.index ∧ s'.memory = s.memory ∧ s'.stack = s.stack ∧
      s'.stackPointer = s.stackPointer ∧ s'.video = s.video ∧ s'.drawFlag = s.drawFlag ∧
      s'.keypad = s.keypad ∧ s'.cerr = fetch s :: s.cerr) ∧
    (∀ n, ∃ s', runCycles n s = some s' ∧
      s'.programCounter = s.programCounter ∧ fetch s' = fetch s ∧
      s'.registers = s.registers ∧ s'.index = s.index ∧ s'.memory = s.memory ∧
      s'.stack = s.stack ∧ s'.stackPointer = s.stackPointer ∧ s'.video = s.video ∧
      s'.drawFlag = s.drawFlag ∧ s'.keypad = s.keypad ∧
      s'.cerr = List.replicate n (fetch s) ++ s.cerr) ∧
    (∀ X Y NN, X < 16 → Y < 16 → NN < 256 →
      reachesDefault (0x8008 + 256 * X + 16 * Y) ∧ reachesDefault (0xE000 + 256 * X) ∧
      reachesDefault (0xF000 + 256 * X) ∧ reachesDefault (0x0001 + 16 * NN)) :=
  ⟨⟨_, emulateCycle_default s hpc hdef, rfl, rfl, rfl, rfl, rfl, rfl, rfl, rfl, rfl, rfl⟩,
    fun n => runCycles_default n s hpc hdef,
    fun X Y NN hX hY hNN => reachesDefault_examples X Y NN hX hY hNN⟩

/-- Witness for C26: the ROM `81 28` (a word of the form 8XY8) on a fresh machine. -/
theorem unknown_opcode_stalls_witness :
    (∃ s', (loaded [0x81, 0x28]).emulateCycle = some s' ∧
      s'.programCounter = (loaded [0x81, 0x28]).programCounter ∧
      s'.registers = (loaded [0x81, 0x28]).registers ∧
      s'.index = (loaded [0x81, 0x28]).index ∧ s'.memory = (loaded [0x81, 0x28]).memory ∧
      s'.stack = (loaded [0x81, 0x28]).stack ∧
      s'.stackPointer = (loaded [0x81, 0x28]).stackPointer ∧
      s'.video = (loaded [0x81, 0x28]).video ∧
      s'.drawFlag = (loaded [0x81, 0x28]).drawFlag ∧
      s'.keypad = (loaded [0x81, 0x28]).keypad ∧
      s'.cerr = fetch (loaded [0x81, 0x28]) :: (loaded [0x81, 0x28]).cerr) ∧
    (∀ n, ∃ s', runCycles n (loaded [0x81, 0x28]) = some s' ∧
      s'.programCounter = (loaded [0x81, 0x28]).programCounter ∧
      fetch s' = fetch (loaded [0x81, 0x28]) ∧
      s'.registers = (loaded [0x81, 0x28]).registers ∧
      s'.index = (loaded [0x81, 0x28]).index ∧ s'.memory = (loaded [0x81, 0x28]).memory ∧
      s'.stack = (loaded [0x81, 0x28]).stack ∧
      s'.stackPointer = (loaded [0x81, 0x28]).stackPointer ∧
      s'.video = (loaded [0x81, 0x28]).video ∧
      s'.drawFlag = (loaded [0x81, 0x28]).drawFlag ∧
      s'.keypad = (loaded [0x81, 0x28]).keypad ∧
      s'.cerr
        = List.replicate n (fetch (loaded [0x81, 0x28])) ++ (loaded [0x81, 0x28]).cerr) ∧
    (∀ X Y NN, X < 16 → Y < 16 → NN < 256 →
      reachesDefault (0x8008 + 256 * X + 16 * Y) ∧ reachesDefault (0xE000 + 256 * X) ∧
      reachesDefault (0xF000 + 256 * X) ∧ reachesDefault (0x0001 + 16 * NN)) :=
  unknown_opcode_stalls (loaded [0x81, 0x28]) (by decide) (by decide)

end Chip8Emu
